import Mathlib

/-!
Verification development for the NT3H2111 NFC driver repository
(`nt3h.c` / `nt3h.h`, plus the draft variants of the same driver).

The C sources are shallowly embedded:

* Device memory is byte addressed, `mem : Nat → Nat`; the 16-byte block at
  block address `a` occupies byte addresses `16*a .. 16*a+15`.  Block
  addresses are `uint16_t` in the C code, so every use of an address on the
  bus reduces it modulo `2^16`.
* The I2C transport (`HAL_I2C_Mem_Write` / `HAL_I2C_Mem_Read` in `nt3h.c`,
  the `read`/`write` callbacks in the draft variant) is modelled by an
  oracle bus: schedules `txOk`/`rxOk` decide whether the n-th transmit /
  receive transaction succeeds, and counters record how many transactions
  have been issued.  A failed transaction has no memory effect.
* Each driver operation additionally returns the list of externally visible
  events it performed (block transmits, block receives, millisecond delays),
  tagged with the driver state in force when the transaction was issued.
* C status enums and the driver state enum are embedded verbatim.
-/

/-- Size of an NFC memory block in bytes (`NFC_I2C_MEM_BLOCK_SIZE`). -/
def NFC_I2C_MEM_BLOCK_SIZE : Nat := 16

/-- Start block address of the SRAM region (`NFC_SRAM_ADDRESS`). -/
def NFC_SRAM_ADDRESS : Nat := 0xF8

/-- Length constant of the SRAM region (`NFC_SRAM_LENGTH`). -/
def NFC_SRAM_LENGTH : Nat := 64

/-- Value used to erase memory (`NFC_MEMORY_ERASE_VALUE`). -/
def NFC_MEMORY_ERASE_VALUE : Nat := 0x00

/-- Modulus of `uint16_t` arithmetic. -/
def U16 : Nat := 65536

/-- Status codes returned by the driver (`NFC_StatusTypeDef` in `nt3h.h`). -/
inductive NFC_StatusTypeDef where
  | NFC_OK
  | NFC_BUSY
  | NFC_ERROR
  | NFC_INVALID_ARGS
  deriving DecidableEq, Repr

/-- Driver states (`NFC_State` in `nt3h.h`). -/
inductive NFC_State where
  | NFC_STATE_RESET
  | NFC_STATE_READY
  | NFC_STATE_BUSY
  | NFC_STATE_TIMEOUT
  | NFC_STATE_ERROR
  deriving DecidableEq, Repr

/-- Capability Container (`NFC_CCTypeDef` in `nt3h.h`): four `uint8_t` fields. -/
structure NFC_CCTypeDef where
  MagicNumber : Nat
  Version : Nat
  MLEN : Nat
  AccessControl : Nat
  deriving DecidableEq, Repr

/-- The NFC handle (`NFC_HandleTypeDef` in `nt3h.h`), restricted to the fields
the driver logic reads or writes: the driver state and the cached Capability
Container. -/
structure NFC_HandleTypeDef where
  State : NFC_State
  CC : NFC_CCTypeDef
  deriving DecidableEq, Repr

/-- Externally visible events of a driver operation: a block transmit to a
block address, a block receive from a block address (each tagged with the
driver state at the moment the transaction was issued), and a blocking delay
of a number of milliseconds (`HAL_Delay`). -/
inductive Ev where
  | tx (addr : Nat) (st : NFC_State)
  | rx (addr : Nat) (st : NFC_State)
  | delay (ms : Nat)
  deriving DecidableEq, Repr

/-- The I2C bus oracle: current device memory (byte addressed), success
schedules for transmits and receives indexed by the transaction counters,
the transaction counters themselves, and the outcome of
`HAL_I2C_IsDeviceReady`. -/
structure I2CBus where
  mem : Nat → Nat
  txOk : Nat → Bool
  rxOk : Nat → Bool
  txCount : Nat
  rxCount : Nat
  devReady : Bool

/-- The 16 bytes of the block at block address `a` (the data delivered by one
successful `HAL_I2C_Mem_Read` of `NFC_I2C_MEM_BLOCK_SIZE` bytes).  The bus
sees the address reduced to `uint16_t`. -/
def blockBytes (mem : Nat → Nat) (a : Nat) : List Nat :=
  (List.range NFC_I2C_MEM_BLOCK_SIZE).map fun i =>
    mem (NFC_I2C_MEM_BLOCK_SIZE * (a % U16) + i)

/-- Memory effect of one successful `HAL_I2C_Mem_Write` of the 16 bytes `blk`
at block address `a`. -/
def storeBlock (mem : Nat → Nat) (a : Nat) (blk : List Nat) : Nat → Nat :=
  fun x =>
    if NFC_I2C_MEM_BLOCK_SIZE * (a % U16) ≤ x ∧
       x < NFC_I2C_MEM_BLOCK_SIZE * (a % U16) + NFC_I2C_MEM_BLOCK_SIZE then
      blk.getD (x - NFC_I2C_MEM_BLOCK_SIZE * (a % U16)) 0
    else
      mem x

/-- The block-count computation of the byte-span translator
(`calculate_blocks_needed` in the draft variant; the identical inline
computation at `nt3h.c` lines 244-248, 280-284 and 321-325).  `offset` is the
already-normalized in-block offset.  The locals are `volatile uint16_t`, so
every step is reduced modulo `2^16`. -/
def calculate_blocks_needed (offset len : Nat) : Nat :=
  let blocks0 := (len / NFC_I2C_MEM_BLOCK_SIZE) % U16
  let remBytes := len % NFC_I2C_MEM_BLOCK_SIZE
  let blocks1 := (blocks0 + if remBytes ≠ 0 then 1 else 0) % U16
  (blocks1 + if offset + len > NFC_I2C_MEM_BLOCK_SIZE then 1 else 0) % U16

/-- The while-loop of `NFC_WriteBlocks` (`nt3h.c` lines 154-176): transmit one
block at a time; a transport failure aborts with `NFC_ERROR`; after each
successful transmit, skip the settle delay exactly when
`address > NFC_SRAM_ADDRESS && address < NFC_SRAM_ADDRESS + NFC_SRAM_LENGTH`,
otherwise delay 4 ms; then advance the block pointer and the address.  `st`
is the driver state in force during the loop (recorded in the events). -/
def NFC_WriteBlocks_loop :
    NFC_State → I2CBus → Nat → List (List Nat) →
      I2CBus × NFC_StatusTypeDef × List Ev
  | _, bus, _, [] => (bus, .NFC_OK, [])
  | st, bus, addr, blk :: rest =>
    if bus.txOk bus.txCount then
      let bus1 : I2CBus :=
        { bus with txCount := bus.txCount + 1, mem := storeBlock bus.mem addr blk }
      let dly : List Ev :=
        if NFC_SRAM_ADDRESS < addr % U16 ∧
           addr % U16 < NFC_SRAM_ADDRESS + NFC_SRAM_LENGTH then [] else [.delay 4]
      let res := NFC_WriteBlocks_loop st bus1 (addr + 1) rest
      (res.1, res.2.1, .tx (addr % U16) st :: (dly ++ res.2.2))
    else
      ({ bus with txCount := bus.txCount + 1 }, .NFC_ERROR, [.tx (addr % U16) st])

/-- The while-loop of `NFC_ReadBlocks` (`nt3h.c` lines 205-217): receive one
block at a time; a transport failure aborts with `NFC_ERROR`. -/
def NFC_ReadBlocks_loop :
    NFC_State → I2CBus → Nat → Nat →
      I2CBus × NFC_StatusTypeDef × List (List Nat) × List Ev
  | _, bus, _, 0 => (bus, .NFC_OK, [], [])
  | st, bus, addr, n + 1 =>
    if bus.rxOk bus.rxCount then
      let bus1 : I2CBus := { bus with rxCount := bus.rxCount + 1 }
      let res := NFC_ReadBlocks_loop st bus1 (addr + 1) n
      (res.1, res.2.1, blockBytes bus.mem addr :: res.2.2.1,
        .rx (addr % U16) st :: res.2.2.2)
    else
      ({ bus with rxCount := bus.rxCount + 1 }, .NFC_ERROR, [], [.rx (addr % U16) st])

/-- Result of a block write / erase style operation. -/
structure WResult where
  h : NFC_HandleTypeDef
  bus : I2CBus
  status : NFC_StatusTypeDef
  trace : List Ev

/-- Result of a block read operation. -/
structure RBResult where
  h : NFC_HandleTypeDef
  bus : I2CBus
  status : NFC_StatusTypeDef
  blocks : List (List Nat)
  trace : List Ev

/-- Result of a byte read operation. -/
structure RMResult where
  h : NFC_HandleTypeDef
  bus : I2CBus
  status : NFC_StatusTypeDef
  out : List Nat
  trace : List Ev

/-- `NFC_WriteBlocks` (`nt3h.c` lines 145-185).  The C block pointer plus
`noOfBlocks` pair is embedded as the list `blocks` (`noOfBlocks == 0`
corresponds to the empty list).  If the state is not `NFC_STATE_READY` the
call returns `NFC_BUSY` untouched; otherwise the state is set to
`NFC_STATE_BUSY` for the duration of the loop and restored to
`NFC_STATE_READY` on every return path. -/
def NFC_WriteBlocks (h : NFC_HandleTypeDef) (bus : I2CBus) (address : Nat)
    (blocks : List (List Nat)) : WResult :=
  if h.State = .NFC_STATE_READY then
    if blocks = [] then ⟨h, bus, .NFC_ERROR, []⟩
    else
      let res := NFC_WriteBlocks_loop .NFC_STATE_BUSY bus address blocks
      ⟨{ h with State := .NFC_STATE_READY }, res.1, res.2.1, res.2.2⟩
  else
    ⟨h, bus, .NFC_BUSY, []⟩

/-- `NFC_ReadBlocks` (`nt3h.c` lines 196-226), same shape as
`NFC_WriteBlocks`. -/
def NFC_ReadBlocks (h : NFC_HandleTypeDef) (bus : I2CBus) (address : Nat)
    (noOfBlocks : Nat) : RBResult :=
  if h.State = .NFC_STATE_READY then
    if noOfBlocks = 0 then ⟨h, bus, .NFC_ERROR, [], []⟩
    else
      let res := NFC_ReadBlocks_loop .NFC_STATE_BUSY bus address noOfBlocks
      ⟨{ h with State := .NFC_STATE_READY }, res.1, res.2.1, res.2.2.1, res.2.2.2⟩
  else
    ⟨h, bus, .NFC_BUSY, [], []⟩

/-- Split a flat scratch buffer into `n` consecutive 16-byte blocks (the VLA
`NFC_Block blocks[blocksNeeded]` viewed block by block). -/
def toChunks : Nat → List Nat → List (List Nat)
  | 0, _ => []
  | n + 1, l => l.take NFC_I2C_MEM_BLOCK_SIZE ::
      toChunks n (l.drop NFC_I2C_MEM_BLOCK_SIZE)

/-- `NFC_ReadMemory` (`nt3h.c` lines 238-262): normalize the address/offset
pair, compute the covering block count, read that many blocks into the
scratch buffer, and copy `size` bytes starting at the in-block offset
(`memcpy(bytes, ((uint8_t*)blocks) + byteOffset, size)`). -/
def NFC_ReadMemory (h : NFC_HandleTypeDef) (bus : I2CBus)
    (address byteOffset size : Nat) : RMResult :=
  let address1 := (address + byteOffset / NFC_I2C_MEM_BLOCK_SIZE) % U16
  let byteOffset1 := byteOffset % NFC_I2C_MEM_BLOCK_SIZE
  let blocksNeeded := calculate_blocks_needed byteOffset1 size
  let r := NFC_ReadBlocks h bus address1 blocksNeeded
  if r.status ≠ .NFC_OK then ⟨r.h, r.bus, .NFC_ERROR, [], r.trace⟩
  else ⟨r.h, r.bus, .NFC_OK, ((r.blocks.flatten).drop byteOffset1).take size, r.trace⟩

/-- `NFC_WriteMemory` (`nt3h.c` lines 274-304): read the covering blocks,
splice the caller's bytes into the scratch buffer at the in-block offset
(`memcpy(((uint8_t*)blocks) + byteOffset, bytes, size)` with
`size = bytes.length`), and write the whole scratch buffer back. -/
def NFC_WriteMemory (h : NFC_HandleTypeDef) (bus : I2CBus)
    (address byteOffset : Nat) (bytes : List Nat) : WResult :=
  let address1 := (address + byteOffset / NFC_I2C_MEM_BLOCK_SIZE) % U16
  let byteOffset1 := byteOffset % NFC_I2C_MEM_BLOCK_SIZE
  let size := bytes.length
  let blocksNeeded := calculate_blocks_needed byteOffset1 size
  let r := NFC_ReadBlocks h bus address1 blocksNeeded
  if r.status ≠ .NFC_OK then ⟨r.h, r.bus, .NFC_ERROR, r.trace⟩
  else
    let scratch := ((r.blocks.flatten).take byteOffset1) ++ bytes ++
      ((r.blocks.flatten).drop (byteOffset1 + size))
    let w := NFC_WriteBlocks r.h r.bus address1 (toChunks blocksNeeded scratch)
    if w.status ≠ .NFC_OK then ⟨w.h, w.bus, .NFC_ERROR, r.trace ++ w.trace⟩
    else ⟨w.h, w.bus, .NFC_OK, r.trace ++ w.trace⟩

/-- `NFC_EraseMemory` (`nt3h.c` lines 315-345): identical to
`NFC_WriteMemory` except that the spliced-in bytes are `size` copies of
`NFC_MEMORY_ERASE_VALUE` (`memset`). -/
def NFC_EraseMemory (h : NFC_HandleTypeDef) (bus : I2CBus)
    (address byteOffset size : Nat) : WResult :=
  let address1 := (address + byteOffset / NFC_I2C_MEM_BLOCK_SIZE) % U16
  let byteOffset1 := byteOffset % NFC_I2C_MEM_BLOCK_SIZE
  let blocksNeeded := calculate_blocks_needed byteOffset1 size
  let r := NFC_ReadBlocks h bus address1 blocksNeeded
  if r.status ≠ .NFC_OK then ⟨r.h, r.bus, .NFC_ERROR, r.trace⟩
  else
    let scratch := ((r.blocks.flatten).take byteOffset1) ++
      List.replicate size NFC_MEMORY_ERASE_VALUE ++
      ((r.blocks.flatten).drop (byteOffset1 + size))
    let w := NFC_WriteBlocks r.h r.bus address1 (toChunks blocksNeeded scratch)
    if w.status ≠ .NFC_OK then ⟨w.h, w.bus, .NFC_ERROR, r.trace ++ w.trace⟩
    else ⟨w.h, w.bus, .NFC_OK, r.trace ++ w.trace⟩

/-- `NFC_WriteConfig` (`nt3h.c` lines 439-458): read the configuration block,
replace the indexed byte by `(old & mask) | regData`, write the block back. -/
def NFC_WriteConfig (h : NFC_HandleTypeDef) (bus : I2CBus)
    (memAddress regAddress mask regData : Nat) : WResult :=
  let r := NFC_ReadBlocks h bus memAddress 1
  if r.status ≠ .NFC_OK then ⟨r.h, r.bus, .NFC_ERROR, r.trace⟩
  else
    let blk := r.blocks.headD []
    let blk1 := blk.set regAddress ((blk.getD regAddress 0 &&& mask) ||| regData)
    let w := NFC_WriteBlocks r.h r.bus memAddress [blk1]
    if w.status ≠ .NFC_OK then ⟨w.h, w.bus, .NFC_ERROR, r.trace ++ w.trace⟩
    else ⟨w.h, w.bus, .NFC_OK, r.trace ++ w.trace⟩

/-- `NFC_ReadCC` (`nt3h.c` lines 530-540): read block 0 and copy bytes 12-15
into the handle's Capability Container (`memcpy(&hnfc->CC, &block.Data[12], 4)`). -/
def NFC_ReadCC (h : NFC_HandleTypeDef) (bus : I2CBus) : WResult :=
  let r := NFC_ReadBlocks h bus 0 1
  if r.status ≠ .NFC_OK then ⟨r.h, r.bus, .NFC_ERROR, r.trace⟩
  else
    let blk := r.blocks.headD []
    ⟨{ r.h with CC := ⟨blk.getD 12 0, blk.getD 13 0, blk.getD 14 0, blk.getD 15 0⟩ },
      r.bus, .NFC_OK, r.trace⟩

/-- `NFC_WriteCC` (`nt3h.c` lines 543-557): read block 0, overwrite bytes
12-15 with the given Capability Container, write block 0 back. -/
def NFC_WriteCC (h : NFC_HandleTypeDef) (bus : I2CBus) (cc : NFC_CCTypeDef) :
    WResult :=
  let r := NFC_ReadBlocks h bus 0 1
  if r.status ≠ .NFC_OK then ⟨r.h, r.bus, .NFC_ERROR, r.trace⟩
  else
    let blk := r.blocks.headD []
    let blk1 := (((blk.set 12 cc.MagicNumber).set 13 cc.Version).set 14
      cc.MLEN).set 15 cc.AccessControl
    let w := NFC_WriteBlocks r.h r.bus 0 [blk1]
    if w.status ≠ .NFC_OK then ⟨w.h, w.bus, .NFC_ERROR, r.trace ++ w.trace⟩
    else ⟨w.h, w.bus, .NFC_OK, r.trace ++ w.trace⟩

/-- `NFC_Init` (`nt3h.c` lines 67-119): set the state to busy, probe the
device (`HAL_I2C_IsDeviceReady`, embedded as the `devReady` oracle); on
failure reset; otherwise become ready, read the Capability Container, and if
all four of its fields are zero, program the default container
`{0xE1, 0x10, 0x6D, 0x00}`. -/
def NFC_Init (h : NFC_HandleTypeDef) (bus : I2CBus) : WResult :=
  let h1 : NFC_HandleTypeDef := { h with State := .NFC_STATE_BUSY }
  if bus.devReady = false then
    ⟨{ h1 with State := .NFC_STATE_RESET }, bus, .NFC_ERROR, []⟩
  else
    let h2 : NFC_HandleTypeDef := { h1 with State := .NFC_STATE_READY }
    let r := NFC_ReadCC h2 bus
    if r.status ≠ .NFC_OK then
      ⟨{ r.h with State := .NFC_STATE_RESET }, r.bus, .NFC_ERROR, r.trace⟩
    else if r.h.CC.MagicNumber = 0 ∧ r.h.CC.Version = 0 ∧
        r.h.CC.MLEN = 0 ∧ r.h.CC.AccessControl = 0 then
      let w := NFC_WriteCC r.h r.bus ⟨0xE1, 0x10, 0x6D, 0x00⟩
      if w.status ≠ .NFC_OK then ⟨w.h, w.bus, .NFC_ERROR, r.trace ++ w.trace⟩
      else ⟨w.h, w.bus, .NFC_OK, r.trace ++ w.trace⟩
    else
      ⟨r.h, r.bus, .NFC_OK, r.trace⟩

/-!
Embedding of the draft variant of the driver (source file `nt3h.c` of the
callback-based draft, here the repository's unnamed part listing
`nt3h_read_bytes`, `null_ptr_check`, `calculate_blocks_needed`, ...).  This
variant has no state machine; the transport is a pair of caller-supplied
callbacks returning an `nt3h_status_t`.  Null pointers have no counterpart
in the embedding, so the three pointers inspected by `null_ptr_check`
(`dev`, `dev->read`, `dev->write`) are embedded as nullness flags, and the
out-pointer of an operation as a nullness flag next to the returned value.
-/

/-- API status codes of the draft variant (`nt3h_status_t` in `nt3h_defs.h`). -/
inductive nt3h_status where
  | NT3H_OK
  | NT3H_E_NULL_PTR
  | NT3H_E_DEV_NOT_FOUND
  | NT3H_E_INVALID_ARGS
  | NT3H_E_BUSY
  deriving DecidableEq, Repr

/-- The device structure of the draft variant (`struct nt3h_dev`), reduced to
the nullness of the pointers `null_ptr_check` inspects. -/
structure nt3h_dev where
  devNull : Bool
  readNull : Bool
  writeNull : Bool
  deriving DecidableEq, Repr

/-- The callback transport of the draft variant: schedules give the
`nt3h_status_t` outcome of the n-th invocation of the `write` and `read`
callbacks; `rawRead` gives the byte delivered by the n-th raw `read`
callback (used by the session-register path); `delays` logs `delay_ms`
calls. -/
structure P1Bus where
  mem : Nat → Nat
  wStatus : Nat → nt3h_status
  rStatus : Nat → nt3h_status
  rawRead : Nat → Nat
  wCount : Nat
  rCount : Nat
  delays : List Nat

/-- `null_ptr_check` (draft variant):
`dev == NULL || dev->read == NULL || dev->write == NULL` fails with
`NT3H_E_NULL_PTR`. -/
def null_ptr_check (dev : nt3h_dev) : nt3h_status :=
  if dev.devNull || dev.readNull || dev.writeNull then .NT3H_E_NULL_PTR
  else .NT3H_OK

/-- The while-loop of the draft variant's `read_blocks`: one `read_mem`
callback per block; the first non-`NT3H_OK` callback status is returned
verbatim. -/
def read_blocks_loop : P1Bus → Nat → Nat → P1Bus × nt3h_status × List (List Nat)
  | bus, _, 0 => (bus, .NT3H_OK, [])
  | bus, addr, n + 1 =>
    let s := bus.rStatus bus.rCount
    let bus1 : P1Bus := { bus with rCount := bus.rCount + 1 }
    if s = .NT3H_OK then
      let res := read_blocks_loop bus1 (addr + 1) n
      (res.1, res.2.1, blockBytes bus.mem addr :: res.2.2)
    else
      (bus1, s, [])

/-- The while-loop of the draft variant's `write_blocks`, including the
settle-delay policy (identical condition to `nt3h.c` lines 163-171). -/
def write_blocks_loop : P1Bus → Nat → List (List Nat) → P1Bus × nt3h_status
  | bus, _, [] => (bus, .NT3H_OK)
  | bus, addr, blk :: rest =>
    let s := bus.wStatus bus.wCount
    let bus1 : P1Bus :=
      { bus with wCount := bus.wCount + 1,
                 mem := if s = .NT3H_OK then storeBlock bus.mem addr blk else bus.mem }
    if s = .NT3H_OK then
      let bus2 : P1Bus :=
        if NFC_SRAM_ADDRESS < addr % U16 ∧
           addr % U16 < NFC_SRAM_ADDRESS + NFC_SRAM_LENGTH then bus1
        else { bus1 with delays := bus1.delays ++ [4] }
      write_blocks_loop bus2 (addr + 1) rest
    else
      (bus1, s)

/-- `read_blocks` (draft variant): null check, argument check, then the
receive loop. -/
def read_blocks (dev : nt3h_dev) (bus : P1Bus) (addr cnt : Nat) :
    P1Bus × nt3h_status × List (List Nat) :=
  if null_ptr_check dev ≠ .NT3H_OK then (bus, .NT3H_E_NULL_PTR, [])
  else if cnt = 0 then (bus, .NT3H_E_INVALID_ARGS, [])
  else read_blocks_loop bus addr cnt

/-- `write_blocks` (draft variant): null check, argument check, then the
transmit loop with settle delays. -/
def write_blocks (dev : nt3h_dev) (bus : P1Bus) (addr : Nat)
    (blocks : List (List Nat)) : P1Bus × nt3h_status :=
  if null_ptr_check dev ≠ .NT3H_OK then (bus, .NT3H_E_NULL_PTR)
  else if blocks = [] then (bus, .NT3H_E_INVALID_ARGS)
  else write_blocks_loop bus addr blocks

/-- `nt3h_read_bytes` (draft variant): null check; `data == NULL || len == 0`
fails with `NT3H_E_INVALID_ARGS`; then normalize, compute the covering block
count (truncated to the `uint8_t` local `blocks_needed`), read and splice. -/
def nt3h_read_bytes (dev : nt3h_dev) (bus : P1Bus) (addr offset : Nat)
    (dataNull : Bool) (len : Nat) : P1Bus × nt3h_status × List Nat :=
  if null_ptr_check dev ≠ .NT3H_OK then (bus, .NT3H_E_NULL_PTR, [])
  else if dataNull = true ∨ len = 0 then (bus, .NT3H_E_INVALID_ARGS, [])
  else
    let addr1 := (addr + offset / NFC_I2C_MEM_BLOCK_SIZE) % U16
    let offset1 := offset % NFC_I2C_MEM_BLOCK_SIZE
    let blocks_needed := (calculate_blocks_needed offset1 len) % 256
    let r := read_blocks dev bus addr1 blocks_needed
    if r.2.1 ≠ .NT3H_OK then (r.1, r.2.1, [])
    else (r.1, .NT3H_OK, ((r.2.2.flatten).drop offset1).take len)

/-- `nt3h_write_bytes` (draft variant): null check; argument check; then
read-splice-write-back. -/
def nt3h_write_bytes (dev : nt3h_dev) (bus : P1Bus) (addr offset : Nat)
    (dataNull : Bool) (data : List Nat) : P1Bus × nt3h_status :=
  if null_ptr_check dev ≠ .NT3H_OK then (bus, .NT3H_E_NULL_PTR)
  else if dataNull = true ∨ data.length = 0 then (bus, .NT3H_E_INVALID_ARGS)
  else
    let addr1 := (addr + offset / NFC_I2C_MEM_BLOCK_SIZE) % U16
    let offset1 := offset % NFC_I2C_MEM_BLOCK_SIZE
    let blocks_needed := (calculate_blocks_needed offset1 data.length) % 256
    let r := read_blocks dev bus addr1 blocks_needed
    if r.2.1 ≠ .NT3H_OK then (r.1, r.2.1)
    else
      let scratch := ((r.2.2.flatten).take offset1) ++ data ++
        ((r.2.2.flatten).drop (offset1 + data.length))
      let w := write_blocks dev r.1 addr1 (toChunks blocks_needed scratch)
      (w.1, w.2)

/-- `nt3h_erase_bytes` (draft variant): null check; `len == 0` fails with
`NT3H_E_INVALID_ARGS`; then read, fill with `NT3H_MEMORY_ERASE_VALUE`,
write back. -/
def nt3h_erase_bytes (dev : nt3h_dev) (bus : P1Bus) (addr offset len : Nat) :
    P1Bus × nt3h_status :=
  if null_ptr_check dev ≠ .NT3H_OK then (bus, .NT3H_E_NULL_PTR)
  else if len = 0 then (bus, .NT3H_E_INVALID_ARGS)
  else
    let addr1 := (addr + offset / NFC_I2C_MEM_BLOCK_SIZE) % U16
    let offset1 := offset % NFC_I2C_MEM_BLOCK_SIZE
    let blocks_needed := (calculate_blocks_needed offset1 len) % 256
    let r := read_blocks dev bus addr1 blocks_needed
    if r.2.1 ≠ .NT3H_OK then (r.1, r.2.1)
    else
      let scratch := ((r.2.2.flatten).take offset1) ++
        List.replicate len NFC_MEMORY_ERASE_VALUE ++
        ((r.2.2.flatten).drop (offset1 + len))
      let w := write_blocks dev r.1 addr1 (toChunks blocks_needed scratch)
      (w.1, w.2)

/-- `nt3h_read_register` (draft variant): null check; `data == NULL` fails
with `NT3H_E_INVALID_ARGS`; then one raw `write` callback (2-byte payload)
and one raw `read` callback (1 byte). -/
def nt3h_read_register (dev : nt3h_dev) (bus : P1Bus) (reg : Nat)
    (dataNull : Bool) : P1Bus × nt3h_status × Nat :=
  if null_ptr_check dev ≠ .NT3H_OK then (bus, .NT3H_E_NULL_PTR, 0)
  else if dataNull = true then (bus, .NT3H_E_INVALID_ARGS, 0)
  else
    let s1 := bus.wStatus bus.wCount
    let bus1 : P1Bus := { bus with wCount := bus.wCount + 1 }
    if s1 ≠ .NT3H_OK then (bus1, s1, 0)
    else
      let s2 := bus1.rStatus bus1.rCount
      let v := bus1.rawRead bus1.rCount
      let bus2 : P1Bus := { bus1 with rCount := bus1.rCount + 1 }
      if s2 ≠ .NT3H_OK then (bus2, s2, 0)
      else (bus2, .NT3H_OK, v)

/-- `nt3h_write_register` (draft variant): null check; one raw `write`
callback (4-byte payload `{block, reg, mask, data}`); its status is
returned verbatim. -/
def nt3h_write_register (dev : nt3h_dev) (bus : P1Bus)
    (reg mask data : Nat) : P1Bus × nt3h_status :=
  if null_ptr_check dev ≠ .NT3H_OK then (bus, .NT3H_E_NULL_PTR)
  else
    let s1 := bus.wStatus bus.wCount
    let bus1 : P1Bus := { bus with wCount := bus.wCount + 1 }
    (bus1, s1)

/-- Address of the configuration block used by the draft variant
(`NT3H_MEM_BLOCK_CONFIG_1K`, 0x3A per the memory map). -/
def NT3H_MEM_BLOCK_CONFIG_1K : Nat := 0x3A

/-- `nt3h_read_config` (draft variant): null check on the device only — the
out-pointer `data` is dereferenced without any check — then a one-block read
of the configuration block and extraction of the indexed byte.  The
`dataNull` argument records how the function was called; the body never
inspects it, exactly like the C source. -/
def nt3h_read_config (dev : nt3h_dev) (bus : P1Bus) (reg : Nat)
    (dataNull : Bool) : P1Bus × nt3h_status × Nat :=
  if null_ptr_check dev ≠ .NT3H_OK then (bus, .NT3H_E_NULL_PTR, 0)
  else
    let r := read_blocks dev bus NT3H_MEM_BLOCK_CONFIG_1K 1
    if r.2.1 ≠ .NT3H_OK then (r.1, r.2.1, 0)
    else (r.1, .NT3H_OK, (r.2.2.headD []).getD reg 0)

/-- `nt3h_write_config` (draft variant): null check, then read-modify-write
of the configuration block with `(old & mask) | data` at the indexed byte. -/
def nt3h_write_config (dev : nt3h_dev) (bus : P1Bus)
    (reg mask data : Nat) : P1Bus × nt3h_status :=
  if null_ptr_check dev ≠ .NT3H_OK then (bus, .NT3H_E_NULL_PTR)
  else
    let r := read_blocks dev bus NT3H_MEM_BLOCK_CONFIG_1K 1
    if r.2.1 ≠ .NT3H_OK then (r.1, r.2.1)
    else
      let blk := r.2.2.headD []
      let blk1 := blk.set reg ((blk.getD reg 0 &&& mask) ||| data)
      let w := write_blocks dev r.1 NT3H_MEM_BLOCK_CONFIG_1K [blk1]
      (w.1, w.2)

/-- `nt3h_check` (draft variant): null check, then a one-block liveness read
of block 0. -/
def nt3h_check (dev : nt3h_dev) (bus : P1Bus) : P1Bus × nt3h_status :=
  if null_ptr_check dev ≠ .NT3H_OK then (bus, .NT3H_E_NULL_PTR)
  else
    let r := read_blocks dev bus 0 1
    (r.1, r.2.1)

/-- `nt3h_is_field_present` (draft variant): null check; a null `is_present`
out-pointer fails with `NT3H_E_NULL_PTR`; then the session register 6 is
read and bit 0 masked. -/
def nt3h_is_field_present (dev : nt3h_dev) (bus : P1Bus)
    (isPresentNull : Bool) : P1Bus × nt3h_status × Bool :=
  if null_ptr_check dev ≠ .NT3H_OK then (bus, .NT3H_E_NULL_PTR, false)
  else if isPresentNull = true then (bus, .NT3H_E_NULL_PTR, false)
  else
    let r := nt3h_read_register dev bus 6 false
    if r.2.1 ≠ .NT3H_OK then (r.1, r.2.1, false)
    else (r.1, .NT3H_OK, (r.2.2 &&& 0x01) ≠ 0)

/-!
Pure descriptions of the block transfer engine's effects, and lemmas
characterising the loops.
-/

/-- Driver state recorded in a transport event (`none` for delays). -/
def evState : Ev → Option NFC_State
  | .tx _ s => some s
  | .rx _ s => some s
  | .delay _ => none

/-- Number of transmit events in a trace. -/
def countTx (evs : List Ev) : Nat :=
  evs.countP fun ev => match ev with | .tx _ _ => true | _ => false

/-- Number of delay events in a trace. -/
def countDelays (evs : List Ev) : Nat :=
  evs.countP fun ev => match ev with | .delay _ => true | _ => false

/-- Data delivered by `n` consecutive successful block reads starting at
block address `a`. -/
def readDataBlocks : (Nat → Nat) → Nat → Nat → List (List Nat)
  | _, _, 0 => []
  | mem, a, n + 1 => blockBytes mem a :: readDataBlocks mem (a + 1) n

/-- Memory after `blks` consecutive successful block writes starting at
block address `a`. -/
def writeDataBlocks : (Nat → Nat) → Nat → List (List Nat) → (Nat → Nat)
  | mem, _, [] => mem
  | mem, a, blk :: rest => writeDataBlocks (storeBlock mem a blk) (a + 1) rest

/-- Events of `n` consecutive successful block reads. -/
def rxEvs : NFC_State → Nat → Nat → List Ev
  | _, _, 0 => []
  | st, a, n + 1 => .rx (a % U16) st :: rxEvs st (a + 1) n

/-- Events of `n` consecutive successful block writes, including the settle
delays of the EEPROM region. -/
def txEvs : NFC_State → Nat → Nat → List Ev
  | _, _, 0 => []
  | st, a, n + 1 =>
    .tx (a % U16) st ::
      ((if NFC_SRAM_ADDRESS < a % U16 ∧
           a % U16 < NFC_SRAM_ADDRESS + NFC_SRAM_LENGTH then [] else [.delay 4]) ++
        txEvs st (a + 1) n)

theorem NFC_ReadBlocks_loop_allOk (st : NFC_State) (bus : I2CBus) (a n : Nat)
    (hok : ∀ k, bus.rxOk k = true) :
    NFC_ReadBlocks_loop st bus a n =
      ({ bus with rxCount := bus.rxCount + n }, .NFC_OK,
        readDataBlocks bus.mem a n, rxEvs st a n) := by
  induction n generalizing bus a with
  | zero => simp [NFC_ReadBlocks_loop, readDataBlocks, rxEvs]
  | succ n ih =>
    have hok1 : ∀ k, ({ bus with rxCount := bus.rxCount + 1 } : I2CBus).rxOk k = true :=
      fun k => hok k
    simp only [NFC_ReadBlocks_loop, hok bus.rxCount, if_true,
      ih { bus with rxCount := bus.rxCount + 1 } (a + 1) hok1,
      readDataBlocks, rxEvs]
    rw [show bus.rxCount + 1 + n = bus.rxCount + (n + 1) from by omega]

theorem NFC_WriteBlocks_loop_allOk (st : NFC_State) (bus : I2CBus) (a : Nat)
    (blks : List (List Nat)) (hok : ∀ k, bus.txOk k = true) :
    NFC_WriteBlocks_loop st bus a blks =
      ({ bus with txCount := bus.txCount + blks.length,
                  mem := writeDataBlocks bus.mem a blks }, .NFC_OK,
        txEvs st a blks.length) := by
  induction blks generalizing bus a with
  | nil => simp [NFC_WriteBlocks_loop, writeDataBlocks, txEvs]
  | cons blk rest ih =>
    have hok1 : ∀ k,
        ({ bus with txCount := bus.txCount + 1,
                    mem := storeBlock bus.mem a blk } : I2CBus).txOk k = true :=
      fun k => hok k
    simp only [NFC_WriteBlocks_loop, hok bus.txCount, if_true,
      ih { bus with txCount := bus.txCount + 1, mem := storeBlock bus.mem a blk }
        (a + 1) hok1,
      writeDataBlocks, txEvs, List.length_cons]
    rw [show bus.txCount + 1 + rest.length = bus.txCount + (rest.length + 1) from by omega]

theorem NFC_WriteBlocks_loop_evState (st : NFC_State) (bus : I2CBus) (a : Nat)
    (blks : List (List Nat)) :
    ∀ ev ∈ (NFC_WriteBlocks_loop st bus a blks).2.2,
      evState ev = some st ∨ evState ev = none := by
  induction blks generalizing bus a with
  | nil => simp [NFC_WriteBlocks_loop]
  | cons blk rest ih =>
    intro ev hev
    simp only [NFC_WriteBlocks_loop] at hev
    by_cases hok : bus.txOk bus.txCount = true
    · simp only [hok, if_true, List.mem_cons, List.mem_append] at hev
      rcases hev with h | h | h
      · subst h; left; rfl
      · rcases Decidable.em (NFC_SRAM_ADDRESS < a % U16 ∧
          a % U16 < NFC_SRAM_ADDRESS + NFC_SRAM_LENGTH) with hc | hc
        · simp [hc] at h
        · simp only [hc, if_neg, List.mem_singleton] at h
          simp [if_neg hc] at h
          subst h; right; rfl
      · exact ih _ _ ev h
    · simp only [Bool.not_eq_true] at hok
      simp [hok] at hev
      subst hev; left; rfl

theorem NFC_ReadBlocks_loop_evState (st : NFC_State) (bus : I2CBus) (a n : Nat) :
    ∀ ev ∈ (NFC_ReadBlocks_loop st bus a n).2.2.2,
      evState ev = some st ∨ evState ev = none := by
  induction n generalizing bus a with
  | zero => simp [NFC_ReadBlocks_loop]
  | succ n ih =>
    intro ev hev
    simp only [NFC_ReadBlocks_loop] at hev
    by_cases hok : bus.rxOk bus.rxCount = true
    · simp only [hok, if_true, List.mem_cons] at hev
      rcases hev with h | h
      · subst h; left; rfl
      · exact ih _ _ ev h
    · simp only [Bool.not_eq_true] at hok
      simp [hok] at hev
      subst hev; left; rfl

theorem countTx_append (l1 l2 : List Ev) :
    countTx (l1 ++ l2) = countTx l1 + countTx l2 := by
  simp [countTx, List.countP_append]

theorem countDelays_append (l1 l2 : List Ev) :
    countDelays (l1 ++ l2) = countDelays l1 + countDelays l2 := by
  simp [countDelays, List.countP_append]

theorem countTx_tx_cons (adr : Nat) (st : NFC_State) (dly evs : List Ev)
    (hd : countTx dly = 0) : countTx (.tx adr st :: (dly ++ evs)) = countTx evs + 1 := by
  simp only [countTx, List.countP_cons, List.countP_append] at hd ⊢
  simp [hd]

theorem countTx_sram_dly (c : Prop) [Decidable c] :
    countTx (if c then ([] : List Ev) else [Ev.delay 4]) = 0 := by
  split <;> simp [countTx]

theorem NFC_WriteBlocks_loop_failAt (st : NFC_State) (bus : I2CBus) (a : Nat)
    (blks : List (List Nat)) (k : Nat) (hk1 : 1 ≤ k) (hk2 : k ≤ blks.length)
    (hpre : ∀ j, j < k - 1 → bus.txOk (bus.txCount + j) = true)
    (hfail : bus.txOk (bus.txCount + (k - 1)) = false) :
    (NFC_WriteBlocks_loop st bus a blks).1.txCount = bus.txCount + k ∧
    (NFC_WriteBlocks_loop st bus a blks).2.1 = .NFC_ERROR ∧
    (NFC_WriteBlocks_loop st bus a blks).1.mem =
      writeDataBlocks bus.mem a (blks.take (k - 1)) ∧
    countTx (NFC_WriteBlocks_loop st bus a blks).2.2 = k := by
  induction blks generalizing bus a k with
  | nil => simp at hk2; omega
  | cons blk rest ih =>
    rcases k with _ | k
    · omega
    rcases k with _ | k
    · have hfail0 : bus.txOk bus.txCount = false := by simpa using hfail
      simp [NFC_WriteBlocks_loop, hfail0, writeDataBlocks, countTx]
    · have hok0 : bus.txOk bus.txCount = true := by
        have := hpre 0 (by omega)
        simpa using this
      have hpre1 : ∀ j, j < k + 1 - 1 → bus.txOk (bus.txCount + 1 + j) = true := by
        intro j hj
        have h1 := hpre (j + 1) (by omega)
        have heq : bus.txCount + (j + 1) = bus.txCount + 1 + j := by omega
        rwa [heq] at h1
      have hfail1 : bus.txOk (bus.txCount + 1 + (k + 1 - 1)) = false := by
        have heq : bus.txCount + (k + 1 + 1 - 1) = bus.txCount + 1 + (k + 1 - 1) := by
          omega
        rwa [heq] at hfail
      obtain ⟨ih1, ih2, ih3, ih4⟩ := ih
        { bus with txCount := bus.txCount + 1, mem := storeBlock bus.mem a blk }
        (a + 1) (k + 1) (by omega) (by simp at hk2 ⊢; omega) hpre1 hfail1
      simp only [NFC_WriteBlocks_loop, hok0, if_true]
      refine ⟨?_, ih2, ?_, ?_⟩
      · rw [ih1]
        show bus.txCount + 1 + (k + 1) = bus.txCount + (k + 1 + 1)
        omega
      · rw [ih3]
        show writeDataBlocks (storeBlock bus.mem a blk) (a + 1)
            (List.take (k + 1 - 1) rest) =
          writeDataBlocks bus.mem a (List.take (k + 1 + 1 - 1) (blk :: rest))
        simp only [Nat.add_sub_cancel, List.take_succ_cons, writeDataBlocks]
      · rw [countTx_tx_cons _ _ _ _ (countTx_sram_dly _), ih4]

theorem blockBytes_length (mem : Nat → Nat) (a : Nat) :
    (blockBytes mem a).length = 16 := by
  simp [blockBytes, NFC_I2C_MEM_BLOCK_SIZE]

theorem blockBytes_getD (mem : Nat → Nat) (a i : Nat) (hi : i < 16) :
    (blockBytes mem a).getD i 0 = mem (16 * (a % U16) + i) := by
  simp [blockBytes, NFC_I2C_MEM_BLOCK_SIZE, List.getD, List.getElem?_map,
    List.getElem?_range hi]

theorem readDataBlocks_flatten_length (mem : Nat → Nat) (a n : Nat) :
    ((readDataBlocks mem a n).flatten).length = 16 * n := by
  induction n generalizing a with
  | zero => simp [readDataBlocks]
  | succ n ih =>
    simp only [readDataBlocks, List.flatten_cons, List.length_append,
      blockBytes_length, ih]
    omega

theorem readDataBlocks_flatten_getD (mem : Nat → Nat) (a n i : Nat)
    (hi : i < 16 * n) (ha : a + n ≤ U16) :
    ((readDataBlocks mem a n).flatten).getD i 0 = mem (16 * a + i) := by
  induction n generalizing a i with
  | zero => omega
  | succ n ih =>
    have haU : a % U16 = a := Nat.mod_eq_of_lt (by omega)
    rcases Nat.lt_or_ge i 16 with h16 | h16
    · rw [readDataBlocks, List.flatten_cons,
        List.getD_append _ _ _ _ (by rw [blockBytes_length]; omega),
        blockBytes_getD mem a i h16, haU]
    · rw [readDataBlocks, List.flatten_cons,
        List.getD_append_right _ _ _ _ (by rw [blockBytes_length]; omega),
        blockBytes_length]
      rw [ih (a + 1) (i - 16) (by omega) (by omega)]
      congr 1
      omega

theorem writeDataBlocks_eq (mem : Nat → Nat) (a : Nat) (blks : List (List Nat))
    (hlen : ∀ blk ∈ blks, blk.length = 16) (ha : a + blks.length ≤ U16) (x : Nat) :
    writeDataBlocks mem a blks x =
      if 16 * a ≤ x ∧ x < 16 * a + 16 * blks.length then
        (blks.flatten).getD (x - 16 * a) 0
      else mem x := by
  induction blks generalizing mem a with
  | nil =>
    simp only [writeDataBlocks, List.length_nil, Nat.mul_zero, Nat.add_zero,
      List.flatten_nil]
    rw [if_neg (by omega)]
  | cons blk rest ih =>
    have haU : a % U16 = a := Nat.mod_eq_of_lt (by simp at ha; omega)
    have hblk : blk.length = 16 := hlen blk (by simp)
    rw [writeDataBlocks, ih (storeBlock mem a blk) (a + 1)
      (fun b hb => hlen b (by simp [hb])) (by simp at ha ⊢; omega)]
    by_cases h1 : 16 * (a + 1) ≤ x ∧ x < 16 * (a + 1) + 16 * rest.length
    · rw [if_pos h1, if_pos (by simp; omega)]
      have harg : x - 16 * a - 16 = x - 16 * (a + 1) := by omega
      rw [List.flatten_cons,
        List.getD_append_right _ _ _ _ (by rw [hblk]; omega), hblk, harg]
    · rw [if_neg h1]
      by_cases h2 : 16 * a ≤ x ∧ x < 16 * a + 16 * (blk :: rest).length
      · rw [if_pos h2]
        have hx16 : 16 * a ≤ x ∧ x < 16 * a + 16 := by simp at h2; omega
        rw [storeBlock, NFC_I2C_MEM_BLOCK_SIZE, haU, if_pos hx16]
        rw [List.flatten_cons, List.getD_append _ _ _ _ (by rw [hblk]; omega)]
      · rw [if_neg h2]
        rw [storeBlock, NFC_I2C_MEM_BLOCK_SIZE, haU,
          if_neg (by simp at h2 ⊢; omega)]

theorem toChunks_length (n : Nat) (l : List Nat) : (toChunks n l).length = n := by
  induction n generalizing l with
  | zero => simp [toChunks]
  | succ n ih => simp [toChunks, ih]

theorem toChunks_mem_length (n : Nat) (l : List Nat) (hl : l.length = 16 * n) :
    ∀ c ∈ toChunks n l, c.length = 16 := by
  induction n generalizing l with
  | zero => simp [toChunks]
  | succ n ih =>
    intro c hc
    simp only [toChunks, NFC_I2C_MEM_BLOCK_SIZE, List.mem_cons] at hc
    rcases hc with rfl | hc
    · simp [hl]
    · exact ih (l.drop 16) (by simp [hl]; omega) c hc

theorem toChunks_flatten (n : Nat) (l : List Nat) (hl : l.length = 16 * n) :
    (toChunks n l).flatten = l := by
  induction n generalizing l with
  | zero =>
    simp only [toChunks, List.flatten_nil]
    exact (List.eq_nil_of_length_eq_zero (by simpa using hl)).symm
  | succ n ih =>
    simp only [toChunks, NFC_I2C_MEM_BLOCK_SIZE, List.flatten_cons]
    rw [ih (l.drop 16) (by simp [hl]; omega), List.take_append_drop]

theorem calculate_blocks_needed_eq (offset len : Nat) (hoff : offset < 16)
    (hpos : 0 < len) (hub : len ≤ 65535) :
    calculate_blocks_needed offset len =
      len / 16 + (if len % 16 ≠ 0 then 1 else 0) +
        (if offset + len > 16 then 1 else 0) := by
  unfold calculate_blocks_needed
  simp only [NFC_I2C_MEM_BLOCK_SIZE, U16]
  have h1 : len / 16 ≤ 4095 := by omega
  split_ifs <;> omega

theorem calculate_blocks_needed_cover (offset len : Nat) (hoff : offset < 16)
    (hpos : 0 < len) (hub : len ≤ 65535) :
    offset + len ≤ 16 * calculate_blocks_needed offset len := by
  unfold calculate_blocks_needed
  simp only [NFC_I2C_MEM_BLOCK_SIZE, U16]
  have h1 : len / 16 ≤ 4095 := by omega
  have h2 : 16 * (len / 16) + len % 16 = len := by omega
  split_ifs <;> omega

theorem calculate_blocks_needed_ub (offset len : Nat) (hoff : offset < 16)
    (hpos : 0 < len) (hub : len ≤ 65535) :
    calculate_blocks_needed offset len ≤ len / 16 + 2 := by
  unfold calculate_blocks_needed
  simp only [NFC_I2C_MEM_BLOCK_SIZE, U16]
  have h1 : len / 16 ≤ 4095 := by omega
  split_ifs <;> omega

theorem calculate_blocks_needed_pos (offset len : Nat) (hoff : offset < 16)
    (hpos : 0 < len) (hub : len ≤ 65535) :
    0 < calculate_blocks_needed offset len := by
  have := calculate_blocks_needed_cover offset len hoff hpos hub
  omega

theorem getD_replicate_zero (n i : Nat) :
    (List.replicate n (0 : Nat)).getD i 0 = 0 := by
  simp [List.getD]

theorem NFC_ReadBlocks_spec (h : NFC_HandleTypeDef) (bus : I2CBus) (a cnt : Nat)
    (hready : h.State = .NFC_STATE_READY) (hok : ∀ n, bus.rxOk n = true)
    (hcnt : cnt ≠ 0) :
    NFC_ReadBlocks h bus a cnt =
      ⟨{ h with State := .NFC_STATE_READY },
        { bus with rxCount := bus.rxCount + cnt }, .NFC_OK,
        readDataBlocks bus.mem a cnt, rxEvs .NFC_STATE_BUSY a cnt⟩ := by
  unfold NFC_ReadBlocks
  rw [if_pos hready, if_neg hcnt, NFC_ReadBlocks_loop_allOk _ _ _ _ hok]

theorem NFC_WriteBlocks_spec (h : NFC_HandleTypeDef) (bus : I2CBus) (a : Nat)
    (blocks : List (List Nat)) (hready : h.State = .NFC_STATE_READY)
    (hok : ∀ n, bus.txOk n = true) (hne : blocks ≠ []) :
    NFC_WriteBlocks h bus a blocks =
      ⟨{ h with State := .NFC_STATE_READY },
        { bus with
            txCount := bus.txCount + blocks.length,
            mem := writeDataBlocks bus.mem a blocks }, .NFC_OK,
        txEvs .NFC_STATE_BUSY a blocks.length⟩ := by
  unfold NFC_WriteBlocks
  rw [if_pos hready, if_neg hne, NFC_WriteBlocks_loop_allOk _ _ _ _ hok]

theorem flat_slice_eq (mem : Nat → Nat) (a cnt off size : Nat)
    (hcover : off + size ≤ 16 * cnt) (haU : a + cnt ≤ U16) :
    (((readDataBlocks mem a cnt).flatten).drop off).take size =
      (List.range size).map (fun i => mem (16 * a + off + i)) := by
  have hlen : ((readDataBlocks mem a cnt).flatten).length = 16 * cnt :=
    readDataBlocks_flatten_length mem a cnt
  apply List.ext_getElem
  · simp [hlen]
    omega
  · intro i h1 h2
    have hi : i < size := by simp [hlen] at h1; omega
    have hoi : off + i < 16 * cnt := by omega
    have hoff : off ≤ ((readDataBlocks mem a cnt).flatten).length := by omega
    rw [List.getElem_take, List.getElem_drop]
    rw [List.getElem_map, List.getElem_range]
    rw [← List.getD_eq_getElem _ 0 (by omega)]
    rw [readDataBlocks_flatten_getD mem a cnt (off + i) hoi haU]
    congr 1
    omega

theorem splice_getD_left (J mid : List Nat) (off i : Nat) (hoff : off ≤ J.length)
    (hi : i < off) :
    (J.take off ++ mid ++ J.drop (off + mid.length)).getD i 0 = J.getD i 0 := by
  rw [List.append_assoc, List.getD_append _ _ _ _ (by simp; omega)]
  rw [List.getD_eq_getElem _ 0 (by simp; omega),
    List.getD_eq_getElem _ 0 (by omega), List.getElem_take]

theorem splice_getD_mid (J mid : List Nat) (off i : Nat) (hoff : off ≤ J.length)
    (h1 : off ≤ i) (h2 : i < off + mid.length) :
    (J.take off ++ mid ++ J.drop (off + mid.length)).getD i 0 =
      mid.getD (i - off) 0 := by
  rw [List.append_assoc,
    List.getD_append_right _ _ _ _ (by simp; omega)]
  rw [List.getD_append _ _ _ _ (by simp; omega)]
  congr 1
  simp
  omega

theorem splice_getD_right (J mid : List Nat) (off i : Nat)
    (hoff : off ≤ J.length) (hml : off + mid.length ≤ J.length)
    (h1 : off + mid.length ≤ i) :
    (J.take off ++ mid ++ J.drop (off + mid.length)).getD i 0 = J.getD i 0 := by
  rw [List.append_assoc,
    List.getD_append_right _ _ _ _ (by simp; omega)]
  rw [List.getD_append_right _ _ _ _ (by simp; omega)]
  rcases Nat.lt_or_ge i J.length with hlt | hge
  · rw [List.getD_eq_getElem _ 0 (by simp; omega),
      List.getD_eq_getElem _ 0 (by omega), List.getElem_drop]
    congr 1
    simp
    omega
  · rw [List.getD_eq_default _ 0 (by simp; omega),
      List.getD_eq_default _ 0 (by omega)]

theorem splice_length (J mid : List Nat) (off : Nat) (hoff : off ≤ J.length)
    (hml : off + mid.length ≤ J.length) :
    (J.take off ++ mid ++ J.drop (off + mid.length)).length = J.length := by
  simp
  omega

/-- Maximum byte address of the device memory from the I2C perspective
(256 blocks of 16 bytes, 8-bit block addressing). -/
def NFC_MEM_BYTES : Nat := 4096

theorem NFC_ReadMemory_spec (h : NFC_HandleTypeDef) (bus : I2CBus)
    (address byteOffset size : Nat) (hready : h.State = .NFC_STATE_READY)
    (hok : ∀ n, bus.rxOk n = true) (hpos : 0 < size)
    (hspan : 16 * address + byteOffset + size ≤ NFC_MEM_BYTES) :
    NFC_ReadMemory h bus address byteOffset size =
      ⟨{ h with State := .NFC_STATE_READY },
        { bus with rxCount := bus.rxCount +
            calculate_blocks_needed (byteOffset % 16) size },
        .NFC_OK,
        (List.range size).map (fun i =>
          bus.mem (16 * (address + byteOffset / 16) + byteOffset % 16 + i)),
        rxEvs .NFC_STATE_BUSY (address + byteOffset / 16)
          (calculate_blocks_needed (byteOffset % 16) size)⟩ := by
  have hspan' : 16 * address + byteOffset + size ≤ 4096 := hspan
  have hub16 : size ≤ 65535 := by omega
  have hoff : byteOffset % 16 < 16 := Nat.mod_lt _ (by norm_num)
  have hcov := calculate_blocks_needed_cover (byteOffset % 16) size hoff hpos hub16
  have hubc := calculate_blocks_needed_ub (byteOffset % 16) size hoff hpos hub16
  have hcpos := calculate_blocks_needed_pos (byteOffset % 16) size hoff hpos hub16
  have ha1 : address + byteOffset / 16 < U16 := by unfold U16; omega
  have ha1U : (address + byteOffset / 16) % U16 = address + byteOffset / 16 :=
    Nat.mod_eq_of_lt ha1
  have hsum : address + byteOffset / 16 +
      calculate_blocks_needed (byteOffset % 16) size ≤ U16 := by
    unfold U16 at *
    omega
  unfold NFC_ReadMemory
  simp only [NFC_I2C_MEM_BLOCK_SIZE]
  rw [ha1U]
  rw [NFC_ReadBlocks_spec h bus (address + byteOffset / 16)
    (calculate_blocks_needed (byteOffset % 16) size) hready hok (by omega)]
  simp only [ne_eq, not_true_eq_false, if_neg, reduceIte]
  rw [flat_slice_eq bus.mem (address + byteOffset / 16)
    (calculate_blocks_needed (byteOffset % 16) size) (byteOffset % 16) size
    hcov hsum]

theorem toChunks_ne_nil (n : Nat) (l : List Nat) (hn : n ≠ 0) :
    toChunks n l ≠ [] := by
  cases n with
  | zero => omega
  | succ n => simp [toChunks]

theorem NFC_WriteMemory_spec (h : NFC_HandleTypeDef) (bus : I2CBus)
    (address byteOffset : Nat) (bytes : List Nat)
    (hready : h.State = .NFC_STATE_READY)
    (hrx : ∀ n, bus.rxOk n = true) (htx : ∀ n, bus.txOk n = true)
    (hpos : 0 < bytes.length)
    (hspan : 16 * address + byteOffset + bytes.length ≤ NFC_MEM_BYTES) :
    NFC_WriteMemory h bus address byteOffset bytes =
      ⟨{ h with State := .NFC_STATE_READY },
        { bus with
            txCount := bus.txCount +
              calculate_blocks_needed (byteOffset % 16) bytes.length,
            rxCount := bus.rxCount +
              calculate_blocks_needed (byteOffset % 16) bytes.length,
            mem := fun x =>
              if 16 * (address + byteOffset / 16) + byteOffset % 16 ≤ x ∧
                 x < 16 * (address + byteOffset / 16) + byteOffset % 16 +
                   bytes.length then
                bytes.getD
                  (x - (16 * (address + byteOffset / 16) + byteOffset % 16)) 0
              else bus.mem x },
        .NFC_OK,
        rxEvs .NFC_STATE_BUSY (address + byteOffset / 16)
            (calculate_blocks_needed (byteOffset % 16) bytes.length) ++
          txEvs .NFC_STATE_BUSY (address + byteOffset / 16)
            (calculate_blocks_needed (byteOffset % 16) bytes.length)⟩ := by
  have hspan' : 16 * address + byteOffset + bytes.length ≤ 4096 := hspan
  have hub16 : bytes.length ≤ 65535 := by omega
  have hoff : byteOffset % 16 < 16 := Nat.mod_lt _ (by norm_num)
  have hcov := calculate_blocks_needed_cover (byteOffset % 16) bytes.length hoff
    hpos hub16
  have hubc := calculate_blocks_needed_ub (byteOffset % 16) bytes.length hoff
    hpos hub16
  have hcpos := calculate_blocks_needed_pos (byteOffset % 16) bytes.length hoff
    hpos hub16
  have ha1 : address + byteOffset / 16 < U16 := by unfold U16; omega
  have ha1U : (address + byteOffset / 16) % U16 = address + byteOffset / 16 :=
    Nat.mod_eq_of_lt ha1
  have hsum : address + byteOffset / 16 +
      calculate_blocks_needed (byteOffset % 16) bytes.length ≤ U16 := by
    unfold U16 at *
    omega
  unfold NFC_WriteMemory
  simp only [NFC_I2C_MEM_BLOCK_SIZE]
  rw [ha1U, NFC_ReadBlocks_spec h bus (address + byteOffset / 16)
    (calculate_blocks_needed (byteOffset % 16) bytes.length) hready hrx (by omega)]
  simp only [ne_eq, not_true_eq_false, reduceIte]
  set cnt := calculate_blocks_needed (byteOffset % 16) bytes.length with hcntdef
  set J := (readDataBlocks bus.mem (address + byteOffset / 16) cnt).flatten
    with hJdef
  set scr := J.take (byteOffset % 16) ++ bytes ++
    J.drop (byteOffset % 16 + bytes.length) with hscrdef
  have hJlen : J.length = 16 * cnt := by
    rw [hJdef]
    exact readDataBlocks_flatten_length _ _ _
  have hscrlen : scr.length = 16 * cnt := by
    rw [hscrdef, splice_length _ _ _ (by omega) (by omega), hJlen]
  rw [NFC_WriteBlocks_spec { h with State := .NFC_STATE_READY }
    { bus with rxCount := bus.rxCount + cnt } (address + byteOffset / 16)
    (toChunks cnt scr) rfl (fun n => htx n) (toChunks_ne_nil _ _ (by omega))]
  simp only [ne_eq, not_true_eq_false, reduceIte]
  simp only [WResult.mk.injEq, I2CBus.mk.injEq, toChunks_length, and_true,
    true_and]
  funext x
  rw [writeDataBlocks_eq _ _ _ (toChunks_mem_length _ _ hscrlen)
    (by rw [toChunks_length]; exact hsum) x]
  rw [toChunks_length, toChunks_flatten _ _ hscrlen]
  by_cases hx : 16 * (address + byteOffset / 16) + byteOffset % 16 ≤ x ∧
      x < 16 * (address + byteOffset / 16) + byteOffset % 16 + bytes.length
  · rw [if_pos (by omega), if_pos hx, hscrdef]
    rw [splice_getD_mid _ _ _ _ (by omega) (by omega) (by omega)]
    congr 1
    omega
  · rw [if_neg hx]
    by_cases hx2 : 16 * (address + byteOffset / 16) ≤ x ∧
        x < 16 * (address + byteOffset / 16) + 16 * cnt
    · rw [if_pos hx2, hscrdef]
      rcases Nat.lt_or_ge (x - 16 * (address + byteOffset / 16))
        (byteOffset % 16) with hlt | hge
      · rw [splice_getD_left _ _ _ _ (by omega) hlt, hJdef]
        rw [readDataBlocks_flatten_getD _ _ _ _ (by omega) hsum]
        congr 1
        omega
      · rw [splice_getD_right _ _ _ _ (by omega) (by omega) (by omega), hJdef]
        rw [readDataBlocks_flatten_getD _ _ _ _ (by omega) hsum]
        congr 1
        omega
    · rw [if_neg hx2]

theorem NFC_EraseMemory_spec (h : NFC_HandleTypeDef) (bus : I2CBus)
    (address byteOffset size : Nat) (hready : h.State = .NFC_STATE_READY)
    (hrx : ∀ n, bus.rxOk n = true) (htx : ∀ n, bus.txOk n = true)
    (hpos : 0 < size)
    (hspan : 16 * address + byteOffset + size ≤ NFC_MEM_BYTES) :
    NFC_EraseMemory h bus address byteOffset size =
      ⟨{ h with State := .NFC_STATE_READY },
        { bus with
            txCount := bus.txCount +
              calculate_blocks_needed (byteOffset % 16) size,
            rxCount := bus.rxCount +
              calculate_blocks_needed (byteOffset % 16) size,
            mem := fun x =>
              if 16 * (address + byteOffset / 16) + byteOffset % 16 ≤ x ∧
                 x < 16 * (address + byteOffset / 16) + byteOffset % 16 +
                   size then
                NFC_MEMORY_ERASE_VALUE
              else bus.mem x },
        .NFC_OK,
        rxEvs .NFC_STATE_BUSY (address + byteOffset / 16)
            (calculate_blocks_needed (byteOffset % 16) size) ++
          txEvs .NFC_STATE_BUSY (address + byteOffset / 16)
            (calculate_blocks_needed (byteOffset % 16) size)⟩ := by
  have hspan' : 16 * address + byteOffset + size ≤ 4096 := hspan
  have hub16 : size ≤ 65535 := by omega
  have hoff : byteOffset % 16 < 16 := Nat.mod_lt _ (by norm_num)
  have hcov := calculate_blocks_needed_cover (byteOffset % 16) size hoff
    hpos hub16
  have hubc := calculate_blocks_needed_ub (byteOffset % 16) size hoff
    hpos hub16
  have hcpos := calculate_blocks_needed_pos (byteOffset % 16) size hoff
    hpos hub16
  have ha1 : address + byteOffset / 16 < U16 := by unfold U16; omega
  have ha1U : (address + byteOffset / 16) % U16 = address + byteOffset / 16 :=
    Nat.mod_eq_of_lt ha1
  have hsum : address + byteOffset / 16 +
      calculate_blocks_needed (byteOffset % 16) size ≤ U16 := by
    unfold U16 at *
    omega
  unfold NFC_EraseMemory
  simp only [NFC_I2C_MEM_BLOCK_SIZE]
  rw [ha1U, NFC_ReadBlocks_spec h bus (address + byteOffset / 16)
    (calculate_blocks_needed (byteOffset % 16) size) hready hrx (by omega)]
  simp only [ne_eq, not_true_eq_false, reduceIte]
  set cnt := calculate_blocks_needed (byteOffset % 16) size with hcntdef
  set J := (readDataBlocks bus.mem (address + byteOffset / 16) cnt).flatten
    with hJdef
  set scr := J.take (byteOffset % 16) ++
    List.replicate size NFC_MEMORY_ERASE_VALUE ++
    J.drop (byteOffset % 16 + size) with hscrdef
  have hJlen : J.length = 16 * cnt := by
    rw [hJdef]
    exact readDataBlocks_flatten_length _ _ _
  have hrep : (List.replicate size NFC_MEMORY_ERASE_VALUE).length = size := by
    simp
  have hscrlen : scr.length = 16 * cnt := by
    rw [hscrdef]
    rw [show byteOffset % 16 + size =
      byteOffset % 16 + (List.replicate size NFC_MEMORY_ERASE_VALUE).length from
      by rw [hrep]]
    rw [splice_length _ _ _ (by omega) (by rw [hrep]; omega), hJlen]
  rw [NFC_WriteBlocks_spec { h with State := .NFC_STATE_READY }
    { bus with rxCount := bus.rxCount + cnt } (address + byteOffset / 16)
    (toChunks cnt scr) rfl (fun n => htx n) (toChunks_ne_nil _ _ (by omega))]
  simp only [ne_eq, not_true_eq_false, reduceIte]
  simp only [WResult.mk.injEq, I2CBus.mk.injEq, toChunks_length, and_true,
    true_and]
  funext x
  rw [writeDataBlocks_eq _ _ _ (toChunks_mem_length _ _ hscrlen)
    (by rw [toChunks_length]; exact hsum) x]
  rw [toChunks_length, toChunks_flatten _ _ hscrlen]
  by_cases hx : 16 * (address + byteOffset / 16) + byteOffset % 16 ≤ x ∧
      x < 16 * (address + byteOffset / 16) + byteOffset % 16 + size
  · rw [if_pos (by omega), if_pos hx, hscrdef]
    rw [show byteOffset % 16 + size =
      byteOffset % 16 + (List.replicate size NFC_MEMORY_ERASE_VALUE).length from
      by rw [hrep]]
    rw [splice_getD_mid _ _ _ _ (by omega) (by omega) (by rw [hrep]; omega)]
    simp [NFC_MEMORY_ERASE_VALUE]
  · rw [if_neg hx]
    by_cases hx2 : 16 * (address + byteOffset / 16) ≤ x ∧
        x < 16 * (address + byteOffset / 16) + 16 * cnt
    · rw [if_pos hx2, hscrdef]
      rw [show byteOffset % 16 + size =
        byteOffset % 16 + (List.replicate size NFC_MEMORY_ERASE_VALUE).length from
        by rw [hrep]]
      rcases Nat.lt_or_ge (x - 16 * (address + byteOffset / 16))
        (byteOffset % 16) with hlt | hge
      · rw [splice_getD_left _ _ _ _ (by omega) hlt, hJdef]
        rw [readDataBlocks_flatten_getD _ _ _ _ (by omega) hsum]
        congr 1
        omega
      · rw [splice_getD_right _ _ _ _ (by omega) (by rw [hrep]; omega)
          (by rw [hrep]; omega), hJdef]
        rw [readDataBlocks_flatten_getD _ _ _ _ (by omega) hsum]
        congr 1
        omega
    · rw [if_neg hx2]

/-!
Claim theorems.  Concrete fixtures used by the witnesses:
-/

/-- A handle in the ready state with a cleared Capability Container cache. -/
def hReady : NFC_HandleTypeDef := ⟨.NFC_STATE_READY, ⟨0, 0, 0, 0⟩⟩

/-- A handle in the busy state. -/
def hBusy : NFC_HandleTypeDef := ⟨.NFC_STATE_BUSY, ⟨0, 0, 0, 0⟩⟩

/-- A bus whose memory is all zero and on which every transaction succeeds. -/
def busZero : I2CBus := ⟨fun _ => 0, fun _ => true, fun _ => true, 0, 0, true⟩

/-- A bus whose memory is all ones and on which every transaction succeeds. -/
def busOnes : I2CBus := ⟨fun _ => 1, fun _ => true, fun _ => true, 0, 0, true⟩

/-- C1 (counterexample): the block count computed by the byte-span translator
does not always equal `ceil((offset % 16 + length) / 16)`: at offset 0 and
length 17 the code computes 3 blocks while the ceiling is 2. -/
theorem claim_C1_counterexample :
    calculate_blocks_needed (0 % 16) 17 ≠ (0 % 16 + 17 + 15) / 16 := by decide

/-- C1 (amended): for every `offset < 10000` and `0 < length ≤ 65535`, the
block count computed by the byte-span translator equals
`length/16 + (1 if length % 16 ≠ 0) + (1 if offset % 16 + length > 16)`; this
is always at least `ceil((offset % 16 + length)/16)` (it can strictly exceed
it), and at offset 8, length 16 it is exactly 2. -/
theorem claim_C1 (offset len : Nat) (hoff : offset < 10000) (hpos : 0 < len)
    (hub : len ≤ 65535) :
    calculate_blocks_needed (offset % 16) len =
      len / 16 + (if len % 16 ≠ 0 then 1 else 0) +
        (if offset % 16 + len > 16 then 1 else 0) ∧
    (offset % 16 + len + 15) / 16 ≤ calculate_blocks_needed (offset % 16) len ∧
    calculate_blocks_needed (8 % 16) 16 = 2 := by
  have h16 : offset % 16 < 16 := Nat.mod_lt _ (by norm_num)
  refine ⟨calculate_blocks_needed_eq _ _ h16 hpos hub, ?_, by decide⟩
  have := calculate_blocks_needed_cover (offset % 16) len h16 hpos hub
  omega

/-- C1 (witness): the amended statement evaluated at offset 8, length 16. -/
theorem claim_C1_witness :
    calculate_blocks_needed (8 % 16) 16 = 2 ∧
    (8 % 16 + 16 + 15) / 16 ≤ calculate_blocks_needed (8 % 16) 16 :=
  ⟨(claim_C1 8 16 (by decide) (by decide) (by decide)).2.2,
    (claim_C1 8 16 (by decide) (by decide) (by decide)).2.1⟩

/-- C10 (counterexample): with an unbounded length the claim fails, because
the block counter is a `uint16_t`: at offset 0 and length `2^20` the computed
count wraps to 1, whose 16 bytes do not cover the requested span. -/
theorem claim_C10_counterexample :
    ¬ (0 + 1048576 ≤ 16 * calculate_blocks_needed 0 1048576) := by decide

/-- C10 (amended): for every normalized offset `< 16` and every
`0 < length ≤ 65535` (so that the `uint16_t` block counter cannot wrap), the
computed block count satisfies `count * 16 ≥ offset + length`, so the read
and write/erase splices stay within the `count * 16`-byte scratch buffer. -/
theorem claim_C10 (offset len : Nat) (hoff : offset < 16) (hpos : 0 < len)
    (hub : len ≤ 65535) :
    offset + len ≤ 16 * calculate_blocks_needed offset len :=
  calculate_blocks_needed_cover offset len hoff hpos hub

/-- C10 (witness): the amended statement evaluated at offset 8, length 16. -/
theorem claim_C10_witness : 8 + 16 ≤ 16 * calculate_blocks_needed 8 16 :=
  claim_C10 8 16 (by decide) (by decide) (by decide)

/-- C3: for every device memory state, address, offset, and non-empty byte
sequence whose span lies within device memory, a successful `NFC_WriteMemory`
followed by `NFC_ReadMemory` over the same `(address, offset, length)` range
returns exactly the written bytes (all transport operations succeeding). -/
theorem claim_C3 (h : NFC_HandleTypeDef) (bus : I2CBus)
    (address byteOffset : Nat) (bytes : List Nat)
    (hready : h.State = .NFC_STATE_READY)
    (hrx : ∀ n, bus.rxOk n = true) (htx : ∀ n, bus.txOk n = true)
    (hpos : 0 < bytes.length)
    (hspan : 16 * address + byteOffset + bytes.length ≤ NFC_MEM_BYTES) :
    (NFC_WriteMemory h bus address byteOffset bytes).status = .NFC_OK ∧
    (NFC_ReadMemory (NFC_WriteMemory h bus address byteOffset bytes).h
        (NFC_WriteMemory h bus address byteOffset bytes).bus
        address byteOffset bytes.length).status = .NFC_OK ∧
    (NFC_ReadMemory (NFC_WriteMemory h bus address byteOffset bytes).h
        (NFC_WriteMemory h bus address byteOffset bytes).bus
        address byteOffset bytes.length).out = bytes := by
  rw [NFC_WriteMemory_spec h bus address byteOffset bytes hready hrx htx hpos
    hspan]
  dsimp only
  rw [NFC_ReadMemory_spec { State := .NFC_STATE_READY, CC := h.CC }
    { bus with
        mem := fun x =>
          if 16 * (address + byteOffset / 16) + byteOffset % 16 ≤ x ∧
             x < 16 * (address + byteOffset / 16) + byteOffset % 16 +
               bytes.length then
            bytes.getD (x - (16 * (address + byteOffset / 16) +
              byteOffset % 16)) 0
          else bus.mem x,
        txCount := bus.txCount +
          calculate_blocks_needed (byteOffset % 16) bytes.length,
        rxCount := bus.rxCount +
          calculate_blocks_needed (byteOffset % 16) bytes.length }
    address byteOffset bytes.length rfl (fun n => hrx n) hpos hspan]
  refine ⟨rfl, rfl, ?_⟩
  dsimp only
  apply List.ext_getElem
  · simp
  · intro i h1 h2
    simp only [List.getElem_map, List.getElem_range]
    have hi : i < bytes.length := h2
    rw [if_pos (by omega)]
    rw [show 16 * (address + byteOffset / 16) + byteOffset % 16 + i -
      (16 * (address + byteOffset / 16) + byteOffset % 16) = i from by omega]
    exact List.getD_eq_getElem bytes 0 hi

/-- C3 (witness): the round trip evaluated at address 0, offset 8, and a
16-byte sequence (a span crossing into a second block). -/
theorem claim_C3_witness :
    (NFC_ReadMemory (NFC_WriteMemory hReady busZero 0 8 (List.replicate 16 7)).h
        (NFC_WriteMemory hReady busZero 0 8 (List.replicate 16 7)).bus
        0 8 16).out = List.replicate 16 7 := by
  have t := claim_C3 hReady busZero 0 8 (List.replicate 16 7) rfl
    (fun _ => rfl) (fun _ => rfl) (by decide) (by decide)
  exact t.2.2

/-- C9: erasing a range twice leaves device memory exactly as erasing it
once: the addressed bytes are 0x00 and every byte outside the span is
unchanged, after either one or two successful erases. -/
theorem claim_C9 (h : NFC_HandleTypeDef) (bus : I2CBus)
    (address byteOffset size : Nat) (hready : h.State = .NFC_STATE_READY)
    (hrx : ∀ n, bus.rxOk n = true) (htx : ∀ n, bus.txOk n = true)
    (hpos : 0 < size)
    (hspan : 16 * address + byteOffset + size ≤ NFC_MEM_BYTES) :
    (NFC_EraseMemory h bus address byteOffset size).status = .NFC_OK ∧
    (NFC_EraseMemory (NFC_EraseMemory h bus address byteOffset size).h
        (NFC_EraseMemory h bus address byteOffset size).bus
        address byteOffset size).status = .NFC_OK ∧
    (NFC_EraseMemory h bus address byteOffset size).bus.mem =
      (fun x =>
        if 16 * (address + byteOffset / 16) + byteOffset % 16 ≤ x ∧
           x < 16 * (address + byteOffset / 16) + byteOffset % 16 + size then
          NFC_MEMORY_ERASE_VALUE
        else bus.mem x) ∧
    (NFC_EraseMemory (NFC_EraseMemory h bus address byteOffset size).h
        (NFC_EraseMemory h bus address byteOffset size).bus
        address byteOffset size).bus.mem =
      (NFC_EraseMemory h bus address byteOffset size).bus.mem := by
  rw [NFC_EraseMemory_spec h bus address byteOffset size hready hrx htx hpos
    hspan]
  dsimp only
  rw [NFC_EraseMemory_spec { State := .NFC_STATE_READY, CC := h.CC }
    { bus with
        mem := fun x =>
          if 16 * (address + byteOffset / 16) + byteOffset % 16 ≤ x ∧
             x < 16 * (address + byteOffset / 16) + byteOffset % 16 + size then
            NFC_MEMORY_ERASE_VALUE
          else bus.mem x,
        txCount := bus.txCount +
          calculate_blocks_needed (byteOffset % 16) size,
        rxCount := bus.rxCount +
          calculate_blocks_needed (byteOffset % 16) size }
    address byteOffset size rfl (fun n => hrx n) (fun n => htx n) hpos hspan]
  refine ⟨rfl, rfl, rfl, ?_⟩
  dsimp only
  funext x
  by_cases hx : 16 * (address + byteOffset / 16) + byteOffset % 16 ≤ x ∧
      x < 16 * (address + byteOffset / 16) + byteOffset % 16 + size
  · simp [hx]
  · simp [hx]

/-- C9 (witness): erase of 16 bytes at address 0, offset 8 on an all-ones
memory; both statuses succeed, a byte inside the span reads 0, a byte outside
reads 1, and the second erase leaves memory identical to the first. -/
theorem claim_C9_witness :
    (NFC_EraseMemory hReady busOnes 0 8 16).status = .NFC_OK ∧
    (NFC_EraseMemory hReady busOnes 0 8 16).bus.mem 12 = 0 ∧
    (NFC_EraseMemory hReady busOnes 0 8 16).bus.mem 7 = 1 ∧
    (NFC_EraseMemory (NFC_EraseMemory hReady busOnes 0 8 16).h
        (NFC_EraseMemory hReady busOnes 0 8 16).bus 0 8 16).bus.mem =
      (NFC_EraseMemory hReady busOnes 0 8 16).bus.mem := by
  have t := claim_C9 hReady busOnes 0 8 16 rfl (fun _ => rfl) (fun _ => rfl)
    (by decide) (by decide)
  refine ⟨t.1, ?_, ?_, t.2.2.2⟩
  · rw [t.2.2.1]
    decide
  · rw [t.2.2.1]
    decide

theorem countP_range_succ (n : Nat) (p : Nat → Bool) :
    (List.range (n + 1)).countP p =
      (if p 0 then 1 else 0) + (List.range n).countP (fun j => p (j + 1)) := by
  rw [List.range_succ_eq_map, List.countP_cons, List.countP_map]
  have hc : (p ∘ Nat.succ) = fun j => p (j + 1) := rfl
  rw [hc]
  split <;> omega

theorem countDelays_txEvs (st : NFC_State) (a n : Nat) :
    countDelays (txEvs st a n) =
      (List.range n).countP (fun j =>
        decide ¬(NFC_SRAM_ADDRESS < (a + j) % U16 ∧
          (a + j) % U16 < NFC_SRAM_ADDRESS + NFC_SRAM_LENGTH)) := by
  induction n generalizing a with
  | zero => simp [txEvs, countDelays]
  | succ n ih =>
    rw [txEvs, countP_range_succ]
    rw [show (fun j => decide ¬(NFC_SRAM_ADDRESS < (a + (j + 1)) % U16 ∧
        (a + (j + 1)) % U16 < NFC_SRAM_ADDRESS + NFC_SRAM_LENGTH)) =
      (fun j => decide ¬(NFC_SRAM_ADDRESS < (a + 1 + j) % U16 ∧
        (a + 1 + j) % U16 < NFC_SRAM_ADDRESS + NFC_SRAM_LENGTH)) from by
      funext j
      rw [show a + (j + 1) = a + 1 + j from by omega]]
    rw [← ih (a + 1)]
    simp only [countDelays, List.countP_cons, List.countP_append]
    by_cases hc : NFC_SRAM_ADDRESS < a % U16 ∧
        a % U16 < NFC_SRAM_ADDRESS + NFC_SRAM_LENGTH
    · simp only [if_pos hc, Nat.add_zero]
      simp [hc, List.countP, List.countP.go]
    · simp only [if_neg hc, Nat.add_zero]
      simp [hc, List.countP, List.countP.go]

/-- C2 (counterexample): a successful single-block write to `NFC_SRAM_ADDRESS`
itself (the base of the SRAM window, where the claim demands no delay) does
incur the 4 ms settle delay, because the engine's test is the strict
`address > NFC_SRAM_ADDRESS`. -/
theorem claim_C2_counterexample :
    (NFC_WriteBlocks hReady busZero NFC_SRAM_ADDRESS
      [List.replicate 16 0]).status = .NFC_OK ∧
    Ev.delay 4 ∈ (NFC_WriteBlocks hReady busZero NFC_SRAM_ADDRESS
      [List.replicate 16 0]).trace := by
  constructor <;> decide

/-- C2 (amended): in a successful multi-block write, the engine performs no
delay after the block written at address `a` if and only if `a` lies in the
open interval `(SRAM_BASE, SRAM_BASE + SRAM_LEN)` — exclusive of the base —
so the number of 4 ms delays equals the number of written addresses outside
that open interval; in particular `SRAM_BASE - 1` and `SRAM_BASE` itself
incur the delay, `SRAM_BASE + 1` through `SRAM_BASE + SRAM_LEN - 1` incur
none, and `SRAM_BASE + SRAM_LEN` incurs the delay again. -/
theorem claim_C2 (h : NFC_HandleTypeDef) (bus : I2CBus) (address : Nat)
    (blocks : List (List Nat)) (hready : h.State = .NFC_STATE_READY)
    (htx : ∀ n, bus.txOk n = true) (hne : blocks ≠ []) :
    (NFC_WriteBlocks h bus address blocks).status = .NFC_OK ∧
    countDelays (NFC_WriteBlocks h bus address blocks).trace =
      (List.range blocks.length).countP (fun j =>
        decide ¬(NFC_SRAM_ADDRESS < (address + j) % U16 ∧
          (address + j) % U16 < NFC_SRAM_ADDRESS + NFC_SRAM_LENGTH)) := by
  rw [NFC_WriteBlocks_spec h bus address blocks hready htx hne]
  exact ⟨rfl, countDelays_txEvs _ _ _⟩

/-- C2 (witness): the amended statement at the four boundary addresses (one
block each): `SRAM_BASE - 1` delays, `SRAM_BASE` delays, `SRAM_BASE + 1` and
`SRAM_BASE + SRAM_LEN - 1` do not, `SRAM_BASE + SRAM_LEN` delays. -/
theorem claim_C2_witness :
    countDelays (NFC_WriteBlocks hReady busZero (NFC_SRAM_ADDRESS - 1)
      [List.replicate 16 0]).trace = 1 ∧
    countDelays (NFC_WriteBlocks hReady busZero NFC_SRAM_ADDRESS
      [List.replicate 16 0]).trace = 1 ∧
    countDelays (NFC_WriteBlocks hReady busZero (NFC_SRAM_ADDRESS + 1)
      [List.replicate 16 0]).trace = 0 ∧
    countDelays (NFC_WriteBlocks hReady busZero
      (NFC_SRAM_ADDRESS + NFC_SRAM_LENGTH - 1) [List.replicate 16 0]).trace = 0 ∧
    countDelays (NFC_WriteBlocks hReady busZero
      (NFC_SRAM_ADDRESS + NFC_SRAM_LENGTH) [List.replicate 16 0]).trace = 1 := by
  refine ⟨?_, ?_, ?_, ?_, ?_⟩ <;>
  · rw [(claim_C2 hReady busZero _ [List.replicate 16 0] rfl (fun _ => rfl)
      (by decide)).2]
    decide

/-- C7: when the transport fails on the k-th block of a multi-block write,
the engine returns the failure after exactly k transmit attempts: the status
is the error, the transmit counter advanced by exactly k, the trace holds
exactly k transmits (no retries, no later blocks), and device memory holds
exactly the first k-1 blocks (no rollback).  The erase operation performs its
write-back through this same engine. -/
theorem claim_C7 (h : NFC_HandleTypeDef) (bus : I2CBus) (address : Nat)
    (blocks : List (List Nat)) (k : Nat)
    (hready : h.State = .NFC_STATE_READY)
    (hk1 : 1 ≤ k) (hk2 : k ≤ blocks.length)
    (hpre : ∀ j, j < k - 1 → bus.txOk (bus.txCount + j) = true)
    (hfail : bus.txOk (bus.txCount + (k - 1)) = false) :
    (NFC_WriteBlocks h bus address blocks).status = .NFC_ERROR ∧
    (NFC_WriteBlocks h bus address blocks).bus.txCount = bus.txCount + k ∧
    countTx (NFC_WriteBlocks h bus address blocks).trace = k ∧
    (NFC_WriteBlocks h bus address blocks).bus.mem =
      writeDataBlocks bus.mem address (blocks.take (k - 1)) := by
  have hne : blocks ≠ [] := by
    intro hnil
    subst hnil
    simp at hk2
    omega
  unfold NFC_WriteBlocks
  rw [if_pos hready, if_neg hne]
  obtain ⟨l1, l2, l3, l4⟩ := NFC_WriteBlocks_loop_failAt .NFC_STATE_BUSY bus
    address blocks k hk1 hk2 hpre hfail
  exact ⟨l2, l1, l4, l3⟩

/-- A bus on which exactly the second transmit (index 1) fails. -/
def busFail2 : I2CBus :=
  ⟨fun _ => 0, fun n => decide (n ≠ 1), fun _ => true, 0, 0, true⟩

/-- C7 (witness): a three-block write whose second transmit fails: error
status, exactly two transmit attempts, and memory holding exactly the first
block. -/
theorem claim_C7_witness :
    (NFC_WriteBlocks hReady busFail2 0 [List.replicate 16 1,
      List.replicate 16 2, List.replicate 16 3]).status = .NFC_ERROR ∧
    (NFC_WriteBlocks hReady busFail2 0 [List.replicate 16 1,
      List.replicate 16 2, List.replicate 16 3]).bus.txCount = 0 + 2 ∧
    countTx (NFC_WriteBlocks hReady busFail2 0 [List.replicate 16 1,
      List.replicate 16 2, List.replicate 16 3]).trace = 2 ∧
    (NFC_WriteBlocks hReady busFail2 0 [List.replicate 16 1,
      List.replicate 16 2, List.replicate 16 3]).bus.mem =
      writeDataBlocks busFail2.mem 0 ([List.replicate 16 1,
        List.replicate 16 2, List.replicate 16 3].take 1) :=
  claim_C7 hReady busFail2 0 [List.replicate 16 1, List.replicate 16 2,
    List.replicate 16 3] 2 rfl (by decide) (by decide) (by decide) (by decide)

/-- C8: a block read or block write on a handle whose state is not ready
returns the busy outcome leaving handle and bus untouched (no transport
call); entered ready, the operation's final state is ready on every return
path, and every transport transaction it performs is issued while the
recorded driver state is busy. -/
theorem claim_C8 (h : NFC_HandleTypeDef) (bus : I2CBus) (address : Nat)
    (blocks : List (List Nat)) (cnt : Nat) :
    (h.State ≠ .NFC_STATE_READY →
      NFC_WriteBlocks h bus address blocks = ⟨h, bus, .NFC_BUSY, []⟩ ∧
      NFC_ReadBlocks h bus address cnt = ⟨h, bus, .NFC_BUSY, [], []⟩) ∧
    (h.State = .NFC_STATE_READY →
      (NFC_WriteBlocks h bus address blocks).h.State = .NFC_STATE_READY ∧
      (NFC_ReadBlocks h bus address cnt).h.State = .NFC_STATE_READY ∧
      (∀ ev ∈ (NFC_WriteBlocks h bus address blocks).trace,
        evState ev = some .NFC_STATE_BUSY ∨ evState ev = none) ∧
      (∀ ev ∈ (NFC_ReadBlocks h bus address cnt).trace,
        evState ev = some .NFC_STATE_BUSY ∨ evState ev = none)) := by
  constructor
  · intro hnr
    unfold NFC_WriteBlocks NFC_ReadBlocks
    rw [if_neg hnr, if_neg hnr]
    exact ⟨rfl, rfl⟩
  · intro hr
    unfold NFC_WriteBlocks NFC_ReadBlocks
    rw [if_pos hr, if_pos hr]
    refine ⟨?_, ?_, ?_, ?_⟩
    · by_cases hb : blocks = []
      · rw [if_pos hb]
        exact hr
      · rw [if_neg hb]
    · by_cases hc : cnt = 0
      · rw [if_pos hc]
        exact hr
      · rw [if_neg hc]
    · by_cases hb : blocks = []
      · rw [if_pos hb]
        intro ev hev
        simp at hev
      · rw [if_neg hb]
        exact fun ev hev =>
          NFC_WriteBlocks_loop_evState .NFC_STATE_BUSY bus address blocks ev hev
    · by_cases hc : cnt = 0
      · rw [if_pos hc]
        intro ev hev
        simp at hev
      · rw [if_neg hc]
        exact fun ev hev =>
          NFC_ReadBlocks_loop_evState .NFC_STATE_BUSY bus address cnt ev hev

/-- C8 (witness): a busy handle rejects both operations untouched; a ready
handle finishes a write in the ready state with every transaction issued in
the busy state. -/
theorem claim_C8_witness :
    NFC_WriteBlocks hBusy busZero 0 [List.replicate 16 0] =
      ⟨hBusy, busZero, .NFC_BUSY, []⟩ ∧
    NFC_ReadBlocks hBusy busZero 0 1 = ⟨hBusy, busZero, .NFC_BUSY, [], []⟩ ∧
    (NFC_WriteBlocks hReady busZero 0 [List.replicate 16 0]).h.State =
      .NFC_STATE_READY ∧
    (∀ ev ∈ (NFC_WriteBlocks hReady busZero 0 [List.replicate 16 0]).trace,
      evState ev = some .NFC_STATE_BUSY ∨ evState ev = none) := by
  have t1 := (claim_C8 hBusy busZero 0 [List.replicate 16 0] 1).1 (by decide)
  have t2 := (claim_C8 hReady busZero 0 [List.replicate 16 0] 1).2 rfl
  exact ⟨t1.1, t1.2, t2.1, t2.2.2.1⟩

theorem getD_set_self (l : List Nat) (i v : Nat) (h : i < l.length) :
    (l.set i v).getD i 0 = v := by
  simp [List.getD, List.getElem?_set_self, h]

theorem getD_set_ne (l : List Nat) (i j v : Nat) (h : i ≠ j) :
    (l.set i v).getD j 0 = l.getD j 0 := by
  simp [List.getD, List.getElem?_set_ne, h]

theorem storeBlock_zero (mem : Nat → Nat) (blk : List Nat) (x : Nat) :
    storeBlock mem 0 blk x = if x < 16 then blk.getD x 0 else mem x := by
  unfold storeBlock NFC_I2C_MEM_BLOCK_SIZE
  norm_num [U16]

theorem blockBytes_zero_getD (mem : Nat → Nat) (i : Nat) (hi : i < 16) :
    (blockBytes mem 0).getD i 0 = mem i := by
  rw [blockBytes_getD mem 0 i hi]
  norm_num [U16]

/-- The block written back by `NFC_WriteCC`: block 0 with bytes 12-15
replaced by the four Capability Container fields. -/
def ccSetBlock (mem : Nat → Nat) (cc : NFC_CCTypeDef) : List Nat :=
  ((((blockBytes mem 0).set 12 cc.MagicNumber).set 13 cc.Version).set 14
    cc.MLEN).set 15 cc.AccessControl

theorem ccSetBlock_getD_12 (mem : Nat → Nat) (cc : NFC_CCTypeDef) :
    (ccSetBlock mem cc).getD 12 0 = cc.MagicNumber := by
  unfold ccSetBlock
  rw [getD_set_ne _ _ _ _ (by omega), getD_set_ne _ _ _ _ (by omega),
    getD_set_ne _ _ _ _ (by omega),
    getD_set_self _ _ _ (by rw [blockBytes_length]; omega)]

theorem ccSetBlock_getD_13 (mem : Nat → Nat) (cc : NFC_CCTypeDef) :
    (ccSetBlock mem cc).getD 13 0 = cc.Version := by
  unfold ccSetBlock
  rw [getD_set_ne _ _ _ _ (by omega), getD_set_ne _ _ _ _ (by omega),
    getD_set_self _ _ _ (by simp [blockBytes_length])]

theorem ccSetBlock_getD_14 (mem : Nat → Nat) (cc : NFC_CCTypeDef) :
    (ccSetBlock mem cc).getD 14 0 = cc.MLEN := by
  unfold ccSetBlock
  rw [getD_set_ne _ _ _ _ (by omega),
    getD_set_self _ _ _ (by simp [blockBytes_length])]

theorem ccSetBlock_getD_15 (mem : Nat → Nat) (cc : NFC_CCTypeDef) :
    (ccSetBlock mem cc).getD 15 0 = cc.AccessControl := by
  unfold ccSetBlock
  rw [getD_set_self _ _ _ (by simp [blockBytes_length])]

theorem ccSetBlock_getD_low (mem : Nat → Nat) (cc : NFC_CCTypeDef) (i : Nat)
    (hi : i < 12) :
    (ccSetBlock mem cc).getD i 0 = mem i := by
  unfold ccSetBlock
  rw [getD_set_ne _ _ _ _ (by omega), getD_set_ne _ _ _ _ (by omega),
    getD_set_ne _ _ _ _ (by omega), getD_set_ne _ _ _ _ (by omega),
    blockBytes_zero_getD mem i (by omega)]

theorem NFC_ReadCC_spec (h : NFC_HandleTypeDef) (bus : I2CBus)
    (hready : h.State = .NFC_STATE_READY) (hrx : ∀ n, bus.rxOk n = true) :
    NFC_ReadCC h bus =
      ⟨⟨.NFC_STATE_READY, ⟨bus.mem 12, bus.mem 13, bus.mem 14, bus.mem 15⟩⟩,
        { bus with rxCount := bus.rxCount + 1 }, .NFC_OK,
        rxEvs .NFC_STATE_BUSY 0 1⟩ := by
  unfold NFC_ReadCC
  rw [NFC_ReadBlocks_spec h bus 0 1 hready hrx (by omega)]
  simp only [ne_eq, not_true_eq_false, reduceIte]
  rw [show readDataBlocks bus.mem 0 1 = [blockBytes bus.mem 0] from rfl]
  simp only [List.headD_cons]
  rw [blockBytes_zero_getD bus.mem 12 (by omega),
    blockBytes_zero_getD bus.mem 13 (by omega),
    blockBytes_zero_getD bus.mem 14 (by omega),
    blockBytes_zero_getD bus.mem 15 (by omega)]

theorem NFC_WriteCC_spec (h : NFC_HandleTypeDef) (bus : I2CBus)
    (cc : NFC_CCTypeDef) (hready : h.State = .NFC_STATE_READY)
    (hrx : ∀ n, bus.rxOk n = true) (htx : ∀ n, bus.txOk n = true) :
    NFC_WriteCC h bus cc =
      ⟨{ h with State := .NFC_STATE_READY },
        { bus with
            txCount := bus.txCount + 1,
            rxCount := bus.rxCount + 1,
            mem := storeBlock bus.mem 0 (ccSetBlock bus.mem cc) },
        .NFC_OK, rxEvs .NFC_STATE_BUSY 0 1 ++ txEvs .NFC_STATE_BUSY 0 1⟩ := by
  unfold NFC_WriteCC
  rw [NFC_ReadBlocks_spec h bus 0 1 hready hrx (by omega)]
  simp only [ne_eq, not_true_eq_false, reduceIte]
  rw [show readDataBlocks bus.mem 0 1 = [blockBytes bus.mem 0] from rfl]
  simp only [List.headD_cons]
  rw [NFC_WriteBlocks_spec { h with State := .NFC_STATE_READY }
    { bus with rxCount := bus.rxCount + 1 } 0
    [((((blockBytes bus.mem 0).set 12 cc.MagicNumber).set 13 cc.Version).set 14
      cc.MLEN).set 15 cc.AccessControl] rfl (fun n => htx n) (by simp)]
  simp only [ne_eq, not_true_eq_false, reduceIte, List.length_singleton]
  rfl

theorem NFC_Init_spec (h : NFC_HandleTypeDef) (bus : I2CBus)
    (hrx : ∀ n, bus.rxOk n = true) (htx : ∀ n, bus.txOk n = true)
    (hdev : bus.devReady = true) :
    ((bus.mem 12 = 0 ∧ bus.mem 13 = 0 ∧ bus.mem 14 = 0 ∧ bus.mem 15 = 0) →
      NFC_Init h bus =
        ⟨⟨.NFC_STATE_READY, ⟨bus.mem 12, bus.mem 13, bus.mem 14, bus.mem 15⟩⟩,
          { bus with
              txCount := bus.txCount + 1,
              rxCount := bus.rxCount + 1 + 1,
              mem := storeBlock bus.mem 0
                (ccSetBlock bus.mem ⟨0xE1, 0x10, 0x6D, 0x00⟩) },
          .NFC_OK,
          rxEvs .NFC_STATE_BUSY 0 1 ++
            (rxEvs .NFC_STATE_BUSY 0 1 ++ txEvs .NFC_STATE_BUSY 0 1)⟩) ∧
    (¬(bus.mem 12 = 0 ∧ bus.mem 13 = 0 ∧ bus.mem 14 = 0 ∧ bus.mem 15 = 0) →
      NFC_Init h bus =
        ⟨⟨.NFC_STATE_READY, ⟨bus.mem 12, bus.mem 13, bus.mem 14, bus.mem 15⟩⟩,
          { bus with rxCount := bus.rxCount + 1 }, .NFC_OK,
          rxEvs .NFC_STATE_BUSY 0 1⟩) := by
  unfold NFC_Init
  rw [hdev, if_neg (by decide)]
  dsimp only
  rw [NFC_ReadCC_spec ⟨.NFC_STATE_READY, h.CC⟩ bus rfl hrx]
  simp only [ne_eq, not_true_eq_false, reduceIte]
  constructor
  · intro hz
    rw [if_pos hz]
    rw [NFC_WriteCC_spec ⟨.NFC_STATE_READY,
        ⟨bus.mem 12, bus.mem 13, bus.mem 14, bus.mem 15⟩⟩
      { bus with rxCount := bus.rxCount + 1 } ⟨0xE1, 0x10, 0x6D, 0x00⟩ rfl
      (fun n => hrx n) (fun n => htx n)]
    simp only [ne_eq, not_true_eq_false, reduceIte]
    rw [hdev]
  · intro hz
    rw [if_neg hz]
    rw [hdev]

/-- C5: on a device whose stored Capability Container is all zero, a
successful `NFC_Init` performs exactly one block write and leaves bytes
12-15 of block 0 holding exactly `{0xE1, 0x10, 0x6D, 0x00}` with every other
byte unchanged; on a device with any non-zero descriptor byte, `NFC_Init`
performs zero writes and leaves memory untouched — hence re-initializing a
just-seeded device performs no further write and changes nothing. -/
theorem claim_C5 (h : NFC_HandleTypeDef) (bus : I2CBus)
    (hrx : ∀ n, bus.rxOk n = true) (htx : ∀ n, bus.txOk n = true)
    (hdev : bus.devReady = true) :
    ((bus.mem 12 = 0 ∧ bus.mem 13 = 0 ∧ bus.mem 14 = 0 ∧ bus.mem 15 = 0) →
      (NFC_Init h bus).status = .NFC_OK ∧
      (NFC_Init h bus).bus.txCount = bus.txCount + 1 ∧
      (NFC_Init h bus).bus.mem 12 = 0xE1 ∧
      (NFC_Init h bus).bus.mem 13 = 0x10 ∧
      (NFC_Init h bus).bus.mem 14 = 0x6D ∧
      (NFC_Init h bus).bus.mem 15 = 0x00 ∧
      (∀ x, x < 12 ∨ 15 < x → (NFC_Init h bus).bus.mem x = bus.mem x) ∧
      (NFC_Init (NFC_Init h bus).h (NFC_Init h bus).bus).bus.txCount =
        (NFC_Init h bus).bus.txCount ∧
      (NFC_Init (NFC_Init h bus).h (NFC_Init h bus).bus).bus.mem =
        (NFC_Init h bus).bus.mem) ∧
    (¬(bus.mem 12 = 0 ∧ bus.mem 13 = 0 ∧ bus.mem 14 = 0 ∧ bus.mem 15 = 0) →
      (NFC_Init h bus).status = .NFC_OK ∧
      (NFC_Init h bus).bus.txCount = bus.txCount ∧
      (NFC_Init h bus).bus.mem = bus.mem) := by
  obtain ⟨s1, s2⟩ := NFC_Init_spec h bus hrx htx hdev
  have h12 : storeBlock bus.mem 0
      (ccSetBlock bus.mem ⟨0xE1, 0x10, 0x6D, 0x00⟩) 12 = 0xE1 := by
    rw [storeBlock_zero, if_pos (by omega), ccSetBlock_getD_12]
  have h13 : storeBlock bus.mem 0
      (ccSetBlock bus.mem ⟨0xE1, 0x10, 0x6D, 0x00⟩) 13 = 0x10 := by
    rw [storeBlock_zero, if_pos (by omega), ccSetBlock_getD_13]
  have h14 : storeBlock bus.mem 0
      (ccSetBlock bus.mem ⟨0xE1, 0x10, 0x6D, 0x00⟩) 14 = 0x6D := by
    rw [storeBlock_zero, if_pos (by omega), ccSetBlock_getD_14]
  have h15 : storeBlock bus.mem 0
      (ccSetBlock bus.mem ⟨0xE1, 0x10, 0x6D, 0x00⟩) 15 = 0x00 := by
    rw [storeBlock_zero, if_pos (by omega), ccSetBlock_getD_15]
  constructor
  · intro hz
    rw [s1 hz]
    dsimp only
    refine ⟨rfl, rfl, h12, h13, h14, h15, ?_, ?_, ?_⟩
    · intro x hx
      rcases hx with hx | hx
      · rw [storeBlock_zero, if_pos (by omega),
          ccSetBlock_getD_low bus.mem _ x hx]
      · rw [storeBlock_zero, if_neg (by omega)]
    · obtain ⟨_, t2⟩ := NFC_Init_spec
        ⟨.NFC_STATE_READY, ⟨bus.mem 12, bus.mem 13, bus.mem 14, bus.mem 15⟩⟩
        { bus with
            txCount := bus.txCount + 1,
            rxCount := bus.rxCount + 1 + 1,
            mem := storeBlock bus.mem 0
              (ccSetBlock bus.mem ⟨0xE1, 0x10, 0x6D, 0x00⟩) }
        (fun n => hrx n) (fun n => htx n) hdev
      have hnz : ¬(storeBlock bus.mem 0
            (ccSetBlock bus.mem ⟨0xE1, 0x10, 0x6D, 0x00⟩) 12 = 0 ∧
          storeBlock bus.mem 0
            (ccSetBlock bus.mem ⟨0xE1, 0x10, 0x6D, 0x00⟩) 13 = 0 ∧
          storeBlock bus.mem 0
            (ccSetBlock bus.mem ⟨0xE1, 0x10, 0x6D, 0x00⟩) 14 = 0 ∧
          storeBlock bus.mem 0
            (ccSetBlock bus.mem ⟨0xE1, 0x10, 0x6D, 0x00⟩) 15 = 0) := by
        intro hcon
        have hc1 := hcon.1
        rw [h12] at hc1
        exact absurd hc1 (by decide)
      rw [t2 hnz]
    · obtain ⟨_, t2⟩ := NFC_Init_spec
        ⟨.NFC_STATE_READY, ⟨bus.mem 12, bus.mem 13, bus.mem 14, bus.mem 15⟩⟩
        { bus with
            txCount := bus.txCount + 1,
            rxCount := bus.rxCount + 1 + 1,
            mem := storeBlock bus.mem 0
              (ccSetBlock bus.mem ⟨0xE1, 0x10, 0x6D, 0x00⟩) }
        (fun n => hrx n) (fun n => htx n) hdev
      have hnz : ¬(storeBlock bus.mem 0
            (ccSetBlock bus.mem ⟨0xE1, 0x10, 0x6D, 0x00⟩) 12 = 0 ∧
          storeBlock bus.mem 0
            (ccSetBlock bus.mem ⟨0xE1, 0x10, 0x6D, 0x00⟩) 13 = 0 ∧
          storeBlock bus.mem 0
            (ccSetBlock bus.mem ⟨0xE1, 0x10, 0x6D, 0x00⟩) 14 = 0 ∧
          storeBlock bus.mem 0
            (ccSetBlock bus.mem ⟨0xE1, 0x10, 0x6D, 0x00⟩) 15 = 0) := by
        intro hcon
        have hc1 := hcon.1
        rw [h12] at hc1
        exact absurd hc1 (by decide)
      rw [t2 hnz]
  · intro hz
    rw [s2 hz]
    exact ⟨rfl, rfl, rfl⟩

/-- C5 (witness): on an all-zero memory, init succeeds with exactly one block
write and the descriptor bytes programmed; a second init performs no further
write. -/
theorem claim_C5_witness :
    (NFC_Init hReady busZero).status = .NFC_OK ∧
    (NFC_Init hReady busZero).bus.txCount = 0 + 1 ∧
    (NFC_Init hReady busZero).bus.mem 12 = 0xE1 ∧
    (NFC_Init hReady busZero).bus.mem 13 = 0x10 ∧
    (NFC_Init hReady busZero).bus.mem 14 = 0x6D ∧
    (NFC_Init hReady busZero).bus.mem 15 = 0x00 ∧
    (NFC_Init (NFC_Init hReady busZero).h
      (NFC_Init hReady busZero).bus).bus.txCount =
      (NFC_Init hReady busZero).bus.txCount := by
  have t := (claim_C5 hReady busZero (fun _ => rfl) (fun _ => rfl) rfl).1
    ⟨rfl, rfl, rfl, rfl⟩
  exact ⟨t.1, t.2.1, t.2.2.1, t.2.2.2.1, t.2.2.2.2.1, t.2.2.2.2.2.1,
    t.2.2.2.2.2.2.2.1⟩

theorem storeBlock_at (mem : Nat → Nat) (a : Nat) (blk : List Nat) (x : Nat)
    (ha : a < U16) :
    storeBlock mem a blk x =
      if 16 * a ≤ x ∧ x < 16 * a + 16 then blk.getD (x - 16 * a) 0
      else mem x := by
  unfold storeBlock NFC_I2C_MEM_BLOCK_SIZE
  rw [Nat.mod_eq_of_lt ha]

/-- C6: a successful configuration-register write stores
`(old & mask) | value` at the indexed byte of the configuration block, writes
every other byte of that block back unchanged, and touches no byte outside
the block. -/
theorem claim_C6 (h : NFC_HandleTypeDef) (bus : I2CBus)
    (memAddress regAddress mask regData : Nat)
    (hready : h.State = .NFC_STATE_READY)
    (hrx : ∀ n, bus.rxOk n = true) (htx : ∀ n, bus.txOk n = true)
    (hmem : memAddress < 256) (hreg : regAddress < 16) :
    (NFC_WriteConfig h bus memAddress regAddress mask regData).status =
      .NFC_OK ∧
    (NFC_WriteConfig h bus memAddress regAddress mask regData).bus.mem
        (16 * memAddress + regAddress) =
      (bus.mem (16 * memAddress + regAddress) &&& mask) ||| regData ∧
    (∀ i, i < 16 → i ≠ regAddress →
      (NFC_WriteConfig h bus memAddress regAddress mask regData).bus.mem
        (16 * memAddress + i) = bus.mem (16 * memAddress + i)) ∧
    (∀ x, x < 16 * memAddress ∨ 16 * memAddress + 16 ≤ x →
      (NFC_WriteConfig h bus memAddress regAddress mask regData).bus.mem x =
        bus.mem x) := by
  have haU : memAddress < U16 := by unfold U16; omega
  have hmU : memAddress % U16 = memAddress := Nat.mod_eq_of_lt haU
  unfold NFC_WriteConfig
  rw [NFC_ReadBlocks_spec h bus memAddress 1 hready hrx (by omega)]
  simp only [ne_eq, not_true_eq_false, reduceIte]
  rw [show readDataBlocks bus.mem memAddress 1 =
    [blockBytes bus.mem memAddress] from rfl]
  simp only [List.headD_cons]
  rw [NFC_WriteBlocks_spec { h with State := .NFC_STATE_READY }
    { bus with rxCount := bus.rxCount + 1 } memAddress
    [(blockBytes bus.mem memAddress).set regAddress
      (((blockBytes bus.mem memAddress).getD regAddress 0 &&& mask) |||
        regData)] rfl (fun n => htx n) (by simp)]
  simp only [ne_eq, not_true_eq_false, reduceIte]
  have hset_len : ((blockBytes bus.mem memAddress).set regAddress
      (((blockBytes bus.mem memAddress).getD regAddress 0 &&& mask) |||
        regData)).length = 16 := by
    simp [blockBytes_length]
  refine ⟨trivial, ?_, ?_, ?_⟩
  · show writeDataBlocks bus.mem memAddress _ _ = _
    rw [show writeDataBlocks bus.mem memAddress
      [(blockBytes bus.mem memAddress).set regAddress
        (((blockBytes bus.mem memAddress).getD regAddress 0 &&& mask) |||
          regData)] = storeBlock bus.mem memAddress
        ((blockBytes bus.mem memAddress).set regAddress
          (((blockBytes bus.mem memAddress).getD regAddress 0 &&& mask) |||
            regData)) from rfl]
    rw [storeBlock_at _ _ _ _ haU, if_pos (by omega),
      show 16 * memAddress + regAddress - 16 * memAddress = regAddress from
        by omega,
      getD_set_self _ _ _ (by rw [blockBytes_length]; omega),
      blockBytes_getD _ _ _ hreg, hmU]
  · intro i hi hne
    show writeDataBlocks bus.mem memAddress _ _ = _
    rw [show writeDataBlocks bus.mem memAddress
      [(blockBytes bus.mem memAddress).set regAddress
        (((blockBytes bus.mem memAddress).getD regAddress 0 &&& mask) |||
          regData)] = storeBlock bus.mem memAddress
        ((blockBytes bus.mem memAddress).set regAddress
          (((blockBytes bus.mem memAddress).getD regAddress 0 &&& mask) |||
            regData)) from rfl]
    rw [storeBlock_at _ _ _ _ haU, if_pos (by omega),
      show 16 * memAddress + i - 16 * memAddress = i from by omega,
      getD_set_ne _ _ _ _ (fun hcon => hne (by omega)),
      blockBytes_getD _ _ _ hi, hmU]
  · intro x hx
    show writeDataBlocks bus.mem memAddress _ _ = _
    rw [show writeDataBlocks bus.mem memAddress
      [(blockBytes bus.mem memAddress).set regAddress
        (((blockBytes bus.mem memAddress).getD regAddress 0 &&& mask) |||
          regData)] = storeBlock bus.mem memAddress
        ((blockBytes bus.mem memAddress).set regAddress
          (((blockBytes bus.mem memAddress).getD regAddress 0 &&& mask) |||
            regData)) from rfl]
    rw [storeBlock_at _ _ _ _ haU, if_neg (by omega)]

/-- A bus whose memory holds 0xAB everywhere. -/
def busAB : I2CBus := ⟨fun _ => 0xAB, fun _ => true, fun _ => true, 0, 0, true⟩

/-- C6 (witness): writing value 0x0F with mask 0xF0 to a register holding
0xAB yields 0xAF, and the neighbouring byte of the block is unchanged. -/
theorem claim_C6_witness :
    (NFC_WriteConfig hReady busAB 0x3A 0 0xF0 0x0F).status = .NFC_OK ∧
    (NFC_WriteConfig hReady busAB 0x3A 0 0xF0 0x0F).bus.mem (16 * 0x3A + 0) =
      0xAF ∧
    (NFC_WriteConfig hReady busAB 0x3A 0 0xF0 0x0F).bus.mem (16 * 0x3A + 1) =
      0xAB := by
  have t := claim_C6 hReady busAB 0x3A 0 0xF0 0x0F rfl (fun _ => rfl)
    (fun _ => rfl) (by decide) (by decide)
  refine ⟨t.1, ?_, ?_⟩
  · rw [t.2.1]
    decide
  · rw [t.2.2.1 1 (by decide) (by decide)]
    decide

/-- A device structure with all pointers valid. -/
def devOK : nt3h_dev := ⟨false, false, false⟩

/-- A device structure that is itself NULL. -/
def devNullDev : nt3h_dev := ⟨true, false, false⟩

/-- A draft-variant bus with all-zero memory and all-succeeding callbacks. -/
def p1BusZero : P1Bus :=
  ⟨fun _ => 0, fun _ => .NT3H_OK, fun _ => .NT3H_OK, fun _ => 0, 0, 0, []⟩

/-- C4 (counterexample): `nt3h_read_config` called with a null output buffer
does not return `NT3H_E_INVALID_ARGS`; it proceeds and issues a transport
call (one block read) before the unchecked pointer is ever used. -/
theorem claim_C4_counterexample :
    (nt3h_read_config devOK p1BusZero 0 true).2.1 ≠ .NT3H_E_INVALID_ARGS ∧
    (nt3h_read_config devOK p1BusZero 0 true).2.1 ≠ .NT3H_E_NULL_PTR ∧
    (nt3h_read_config devOK p1BusZero 0 true).1.rCount = 1 := by
  refine ⟨?_, ?_, ?_⟩ <;> decide

/-- C4 (amended): every public operation whose device pointer, read callback
or write callback is null returns `NT3H_E_NULL_PTR` without issuing any
transport call (the bus is untouched); and the operations that validate
their buffer/length arguments — byte read/write/erase and the
session-register read — return `NT3H_E_INVALID_ARGS` on a null data buffer
or zero length without issuing any transport call.  The
configuration-register read performs no null check on its output pointer
(see the counterexample), and the field-present probe reports a null output
pointer as `NT3H_E_NULL_PTR` rather than `NT3H_E_INVALID_ARGS`. -/
theorem claim_C4 (dev : nt3h_dev) (bus : P1Bus)
    (addr offset reg mask data len : Nat) (bytes : List Nat) (dn : Bool) :
    ((dev.devNull = true ∨ dev.readNull = true ∨ dev.writeNull = true) →
      nt3h_read_bytes dev bus addr offset dn len =
        (bus, .NT3H_E_NULL_PTR, []) ∧
      nt3h_write_bytes dev bus addr offset dn bytes =
        (bus, .NT3H_E_NULL_PTR) ∧
      nt3h_erase_bytes dev bus addr offset len = (bus, .NT3H_E_NULL_PTR) ∧
      nt3h_read_register dev bus reg dn = (bus, .NT3H_E_NULL_PTR, 0) ∧
      nt3h_write_register dev bus reg mask data = (bus, .NT3H_E_NULL_PTR) ∧
      nt3h_read_config dev bus reg dn = (bus, .NT3H_E_NULL_PTR, 0) ∧
      nt3h_write_config dev bus reg mask data = (bus, .NT3H_E_NULL_PTR) ∧
      nt3h_check dev bus = (bus, .NT3H_E_NULL_PTR) ∧
      nt3h_is_field_present dev bus dn = (bus, .NT3H_E_NULL_PTR, false)) ∧
    (dev.devNull = false → dev.readNull = false → dev.writeNull = false →
      (∀ (dn1 : Bool) (ln : Nat), dn1 = true ∨ ln = 0 →
        nt3h_read_bytes dev bus addr offset dn1 ln =
          (bus, .NT3H_E_INVALID_ARGS, [])) ∧
      (∀ (dn1 : Bool) (bs : List Nat), dn1 = true ∨ bs.length = 0 →
        nt3h_write_bytes dev bus addr offset dn1 bs =
          (bus, .NT3H_E_INVALID_ARGS)) ∧
      nt3h_erase_bytes dev bus addr offset 0 = (bus, .NT3H_E_INVALID_ARGS) ∧
      nt3h_read_register dev bus reg true = (bus, .NT3H_E_INVALID_ARGS, 0) ∧
      nt3h_is_field_present dev bus true = (bus, .NT3H_E_NULL_PTR, false)) := by
  constructor
  · intro hbad
    have hnp : null_ptr_check dev = .NT3H_E_NULL_PTR := by
      unfold null_ptr_check
      rcases hbad with hb | hb | hb <;> simp [hb]
    refine ⟨?_, ?_, ?_, ?_, ?_, ?_, ?_, ?_, ?_⟩
    · unfold nt3h_read_bytes
      rw [hnp]
      rfl
    · unfold nt3h_write_bytes
      rw [hnp]
      rfl
    · unfold nt3h_erase_bytes
      rw [hnp]
      rfl
    · unfold nt3h_read_register
      rw [hnp]
      rfl
    · unfold nt3h_write_register
      rw [hnp]
      rfl
    · unfold nt3h_read_config
      rw [hnp]
      rfl
    · unfold nt3h_write_config
      rw [hnp]
      rfl
    · unfold nt3h_check
      rw [hnp]
      rfl
    · unfold nt3h_is_field_present
      rw [hnp]
      rfl
  · intro h1 h2 h3
    have hok : null_ptr_check dev = .NT3H_OK := by
      unfold null_ptr_check
      simp [h1, h2, h3]
    refine ⟨?_, ?_, ?_, ?_, ?_⟩
    · intro dn1 ln hdl
      unfold nt3h_read_bytes
      rw [hok, if_neg (by decide), if_pos hdl]
    · intro dn1 bs hdl
      unfold nt3h_write_bytes
      rw [hok, if_neg (by decide), if_pos hdl]
    · unfold nt3h_erase_bytes
      rw [hok, if_neg (by decide), if_pos rfl]
    · unfold nt3h_read_register
      rw [hok, if_neg (by decide), if_pos rfl]
    · unfold nt3h_is_field_present
      rw [hok, if_neg (by decide), if_pos rfl]

/-- C4 (witness): a null device pointer is rejected with `NT3H_E_NULL_PTR`
and an untouched bus; with a valid device, a null buffer or zero length is
rejected with `NT3H_E_INVALID_ARGS` and an untouched bus. -/
theorem claim_C4_witness :
    nt3h_read_bytes devNullDev p1BusZero 0 0 false 4 =
      (p1BusZero, .NT3H_E_NULL_PTR, []) ∧
    nt3h_check devNullDev p1BusZero = (p1BusZero, .NT3H_E_NULL_PTR) ∧
    nt3h_read_bytes devOK p1BusZero 0 0 true 4 =
      (p1BusZero, .NT3H_E_INVALID_ARGS, []) ∧
    nt3h_read_register devOK p1BusZero 0 true =
      (p1BusZero, .NT3H_E_INVALID_ARGS, 0) := by
  have t1 := (claim_C4 devNullDev p1BusZero 0 0 0 0 0 4 [] false).1
    (Or.inl rfl)
  have t2 := (claim_C4 devOK p1BusZero 0 0 0 0 0 4 [] false).2 rfl rfl rfl
  exact ⟨t1.1, t1.2.2.2.2.2.2.2.1, t2.1 true 4 (Or.inl rfl), t2.2.2.2.1⟩
